import Mathlib

/-!
Verification development for the shift-management application.

The definitions below are shallow embeddings of the TypeScript source:
strings stay strings, JS numbers become `Int` (or `Option Int` where the
runtime value may be `undefined`), fallible lookups become `Option`, and
every function is written as a computable structural recursion so that it
can be evaluated on concrete inputs inside proofs.
-/

/- ===================== Time utilities (src/lib/types.ts) ===================== -/

/-- Value of a decimal digit list, most significant first, as folded by a
decimal reader (mirrors how `Number` reads an all-digit string). -/
def digitsToNat (cs : List Char) : Nat :=
  cs.foldl (fun n c => n * 10 + (c.toNat - '0'.toNat)) 0

/-- Decimal digits of a natural number, least significant first.  The first
argument is fuel; callers pass `n + 1` which is always sufficient. -/
def natDigitsAux : Nat → Nat → List Char
  | 0, _ => []
  | fuel + 1, n => if n < 10 then [Nat.digitChar n] else Nat.digitChar (n % 10) :: natDigitsAux fuel (n / 10)

/-- Decimal digit characters of a natural number, most significant first.
Extensionally equal to JS `Number.prototype.toString` on naturals. -/
def natChars (n : Nat) : List Char :=
  (natDigitsAux (n + 1) n).reverse

/-- Decimal rendering of an integer; mirrors JS `toString` on integers. -/
def intChars (i : Int) : List Char :=
  if i < 0 then '-' :: natChars (-i).toNat else natChars i.toNat

/-- String form of a natural number. -/
def natToString (n : Nat) : String := ⟨natChars n⟩

/-- String form of an integer. -/
def intToString (i : Int) : String := ⟨intChars i⟩

/-- Reading of a character list as JS `Number` reads an optionally signed
all-digit string; `Number('') = 0`.  Inputs outside that fragment (which
would be `NaN` in JS) are mapped to the junk value `0`; no claim below
depends on such inputs. -/
def jsNumOfChars : List Char → Int
  | '-' :: rest => if rest ≠ [] && rest.all Char.isDigit then -(Int.ofNat (digitsToNat rest)) else 0
  | cs => if cs.all Char.isDigit then Int.ofNat (digitsToNat cs) else 0

/-- Split a character list at every occurrence of a separator character;
mirrors JS `String.prototype.split` with a single-character separator. -/
def splitOnSep (c : Char) : List Char → List (List Char)
  | [] => [[]]
  | x :: xs =>
    if x == c then [] :: splitOnSep c xs
    else
      match splitOnSep c xs with
      | [] => [[x]]
      | h :: t => (x :: h) :: t

/-- Embedding of `timeToMinutes`: `time.split(':')` and `h * 60 + m`. -/
def timeToMinutes (t : String) : Int :=
  match splitOnSep ':' t.toList with
  | h :: m :: _ => jsNumOfChars h * 60 + jsNumOfChars m
  | _ => 0

/-- Left-pad a character list with `'0'` up to a target length; mirrors
`padStart(n, '0')`. -/
def padZeroTo (n : Nat) (l : List Char) : List Char :=
  List.replicate (n - l.length) '0' ++ l

/-- Embedding of `minutesToTime`: `Math.floor(minutes / 60)` is `Int.fdiv`
and the JS remainder `%` is `Int.tmod`. -/
def minutesToTime (m : Int) : String :=
  ⟨padZeroTo 2 (intChars (m.fdiv 60)) ++ ':' :: padZeroTo 2 (intChars (m.tmod 60))⟩

/- ===================== Domain model (src/lib/types.ts, v2) ===================== -/

/-- Staff member entity. -/
structure StaffMember where
  id : String
  name : String
deriving DecidableEq

/-- Role entity. -/
structure Role where
  id : String
  name : String
  color : String
  textColor : String
deriving DecidableEq

/-- Session-scoped override.  The offset fields are read through `?? 0` /
`?? end - start` in the grid resolver, so the runtime may lack them; they
are embedded as `Option Int`. -/
structure Override where
  id : String
  startOffsetMinutes : Option Int
  endOffsetMinutes : Option Int
  roleId : String
  note : Option String
deriving DecidableEq

/-- Assignment keyed by `(sessionId, staffId)`. -/
structure Assignment where
  sessionId : String
  staffId : String
  roleId : String
  note : Option String
  overrides : List Override
deriving DecidableEq

/-- Milestone owned by a session. -/
structure Milestone where
  id : String
  offsetMinutes : Int
  label : String
deriving DecidableEq

/-- Session entity.  `durationMinutes` is read through `|| 30` in the chain
calculator and may be absent at runtime (e.g. sessions created by the CSV
parser), hence `Option Int`. -/
structure Session where
  id : String
  dayId : Int
  title : String
  durationMinutes : Option Int
  startTime : String
  endTime : String
  milestones : List Milestone
deriving DecidableEq

/-- Global staff override with absolute times. -/
structure StaffOverride where
  id : String
  staffId : String
  dayId : Int
  startTime : String
  endTime : String
  roleId : String
  note : Option String
deriving DecidableEq

/-- Per-day configuration. -/
structure DayConfig where
  id : Int
  label : String
  date : Option String
  dayStartTime : Option String
deriving DecidableEq

/-- Whole persisted document. -/
structure ShiftData where
  staff : List StaffMember
  roles : List Role
  sessions : List Session
  assignments : List Assignment
  staffOverrides : List StaffOverride
  days : List DayConfig
  gridStartTime : String
  gridEndTime : String
deriving DecidableEq

/- ============== Session chain calculator (recomputeSessionTimes) ============== -/

/-- Embedding of `session.durationMinutes || 30`: the JS falsy values of a
possibly-absent number field are `undefined` and `0`. -/
def effDuration : Option Int → Int
  | none => 30
  | some k => if k == 0 then 30 else k

/-- Embedding of `day.dayStartTime || '09:00'`. -/
def orDefaultStart : Option String → String
  | some t => if t == "" then "09:00" else t
  | none => "09:00"

/-- Effective day-start string for a day id: the source stores
`day.dayStartTime || '09:00'` into a `Map` (so for duplicate ids the last
entry wins) and falls back to `'09:00'` for ids not in the map. -/
def dayStartStrOf (days : List DayConfig) (d : Int) : String :=
  match days.reverse.find? (fun dc => dc.id == d) with
  | some dc => orDefaultStart dc.dayStartTime
  | none => "09:00"

/-- Parsed day-start minute for a day id. -/
def startMin (days : List DayConfig) (d : Int) : Int :=
  timeToMinutes (dayStartStrOf days d)

/-- Sum of effective durations of a session list (the total advance of the
running `currentMin` over those sessions). -/
def sumEff : List Session → Int
  | [] => 0
  | s :: t => effDuration s.durationMinutes + sumEff t

/-- One chain-loop step: `{...session, durationMinutes: duration, startTime:
minutesToTime(currentMin), endTime: minutesToTime(currentMin + duration)}`. -/
def stamp (s : Session) (cur : Int) : Session :=
  { s with
    durationMinutes := some (effDuration s.durationMinutes)
    startTime := minutesToTime cur
    endTime := minutesToTime (cur + effDuration s.durationMinutes) }

/-- Embedding of the body of `recomputeSessionTimes`.  The source groups the
sessions by `dayId` (preserving array order), chains each group from the
day's start minute, and writes each result back at the session's original
index.  Consequently the running minute reached at a given session equals
the day start plus the effective durations of the earlier sessions with the
same `dayId`; this recursion computes exactly that, carrying the already
processed prefix `p`. -/
def recomputeGo (days : List DayConfig) (p : List Session) : List Session → List Session
  | [] => []
  | s :: rest =>
    stamp s (startMin days s.dayId + sumEff (p.filter (fun t => t.dayId == s.dayId)))
      :: recomputeGo days (p ++ [s]) rest

/-- Embedding of `recomputeSessionTimes` (src/lib/types.ts). -/
def recomputeSessionTimes (sessions : List Session) (days : List DayConfig) : List Session :=
  recomputeGo days [] sessions

/- ============ Assignment/override resolver (src/components/shift-grid.tsx) ============ -/

/-- Resolved milestone with absolute time. -/
structure ResolvedMilestone where
  time : String
  label : String
deriving DecidableEq

/-- Resolved cell of the grid (interface `CellInfo`). -/
structure CellInfo where
  sessionId : Option String
  roleId : Option String
  roleName : String
  roleColor : String
  roleTextColor : String
  sessionTitle : String
  isOverride : Bool
  isGlobalOverride : Bool
  note : String
  milestones : List ResolvedMilestone
deriving DecidableEq

/-- The `EMPTY_CELL` constant. -/
def EMPTY_CELL : CellInfo :=
  { sessionId := none, roleId := none, roleName := "", roleColor := "", roleTextColor := ""
    sessionTitle := "", isOverride := false, isGlobalOverride := false, note := ""
    milestones := [] }

/-- Lookup in `roleMap = new Map(roles.map(r => [r.id, r]))`; for duplicate
ids the last entry wins. -/
def roleLookup (roles : List Role) (rid : String) : Option Role :=
  roles.reverse.find? (fun r => r.id == rid)

/-- Lookup in `assignMap` keyed by the session/staff pair; built by
sequential `Map.set`, so the last matching assignment wins. -/
def assignLookup (assignments : List Assignment) (sid stid : String) : Option Assignment :=
  assignments.reverse.find? (fun a => a.sessionId == sid && a.staffId == stid)

/-- Half-open containment test of a slot minute in a session's interval
(`slotMin >= start && slotMin < end`). -/
def containsSlot (slotMin : Int) (s : Session) : Bool :=
  decide (timeToMinutes s.startTime ≤ slotMin) && decide (slotMin < timeToMinutes s.endTime)

/-- Containment test for a global staff override. -/
def globalMatch (slotMin : Int) (so : StaffOverride) : Bool :=
  decide (timeToMinutes so.startTime ≤ slotMin) && decide (slotMin < timeToMinutes so.endTime)

/-- Ordering used by `sortedSessions`: ascending parsed `startTime`. -/
def sessionLE (a b : Session) : Prop :=
  timeToMinutes a.startTime ≤ timeToMinutes b.startTime

instance : DecidableRel sessionLE := fun _ _ => inferInstanceAs (Decidable (_ ≤ _))

instance : IsTotal Session sessionLE := ⟨fun _ _ => Int.le_total _ _⟩

instance : IsTrans Session sessionLE := ⟨fun _ _ _ => Int.le_trans⟩

/-- Embedding of `sortedSessions = [...sessions].sort((a, b) =>
timeToMinutes(a.startTime) - timeToMinutes(b.startTime))`.  JS `sort` is
stable, and a stable ascending sort is unique, so the stable insertion sort
computes the same list. -/
def sortedSessions (sessions : List Session) : List Session :=
  List.insertionSort sessionLE sessions

/-- Scan of the sorted sessions for the first one containing the slot. -/
def sessionForSlot (sessions : List Session) (slotMin : Int) : Option Session :=
  (sortedSessions sessions).find? (containsSlot slotMin)

/-- Milestones of the session with id `sid` that fall in the 5-minute slot
`slot`.  The source precomputes `sessionMilestoneMap`: sessions with an
empty milestone list are skipped, later sessions with the same id overwrite
earlier ones, milestones with an empty label are dropped, and each
remaining milestone is keyed by its absolute time snapped down to the
nearest 5-minute boundary, preserving order within a key. -/
def milestonesFor (sessions : List Session) (sid : String) (slot : String) : List ResolvedMilestone :=
  match (sessions.filter (fun s => s.id == sid && !s.milestones.isEmpty)).getLast? with
  | none => []
  | some s =>
    (s.milestones.filter (fun ms =>
        ms.label ≠ "" &&
        minutesToTime (((timeToMinutes s.startTime + ms.offsetMinutes).fdiv 5) * 5) == slot)).map
      (fun ms => { time := minutesToTime (timeToMinutes s.startTime + ms.offsetMinutes)
                   label := ms.label })

/-- Milestones attached to a global-override cell: the source scans
`sortedSessions` for the first session containing the slot and uses its
milestone map. -/
def globalCellMilestones (sessions : List Session) (slotMin : Int) (slot : String) : List ResolvedMilestone :=
  match sessionForSlot sessions slotMin with
  | some sess => milestonesFor sessions sess.id slot
  | none => []

/-- Session-override containment test used inside the resolver:
`ovStart = start + (ov.startOffsetMinutes ?? 0)` and
`ovEnd = start + (ov.endOffsetMinutes ?? end - start)`. -/
def sessOvMatch (sStart sEnd slotMin : Int) (ov : Override) : Bool :=
  decide (sStart + ov.startOffsetMinutes.getD 0 ≤ slotMin) &&
  decide (slotMin < sStart + ov.endOffsetMinutes.getD (sEnd - sStart))

/-- Body of the resolver once a containing session has been found (the
priority 2+3 part of the per-cell loop): session-level override first, then
the assignment's default role, else the unassigned-in-session cell. -/
def resolveForSession (slot : String) (staffId : String) (sessions : List Session)
    (assignments : List Assignment) (roles : List Role) (sess : Session) : CellInfo :=
  let slotMin := timeToMinutes slot
  match assignLookup assignments sess.id staffId with
  | none =>
    { sessionId := some sess.id, roleId := none
      roleName := "", roleColor := "", roleTextColor := ""
      sessionTitle := sess.title, isOverride := false, isGlobalOverride := false
      note := "", milestones := milestonesFor sessions sess.id slot }
  | some a =>
    let sStart := timeToMinutes sess.startTime
    let sEnd := timeToMinutes sess.endTime
    match a.overrides.find? (sessOvMatch sStart sEnd slotMin) with
    | some ov =>
      let role := roleLookup roles ov.roleId
      { sessionId := some sess.id, roleId := some ov.roleId
        roleName := (role.map Role.name).getD ""
        roleColor := (role.map Role.color).getD ""
        roleTextColor := (role.map Role.textColor).getD ""
        sessionTitle := sess.title, isOverride := true, isGlobalOverride := false
        note := ov.note.getD ""
        milestones := milestonesFor sessions sess.id slot }
    | none =>
      let role := if a.roleId == "" then none else roleLookup roles a.roleId
      { sessionId := some sess.id
        roleId := if a.roleId == "" then none else some a.roleId
        roleName := (role.map Role.name).getD ""
        roleColor := (role.map Role.color).getD ""
        roleTextColor := (role.map Role.textColor).getD ""
        sessionTitle := sess.title, isOverride := false, isGlobalOverride := false
        note := a.note.getD ""
        milestones := milestonesFor sessions sess.id slot }

/-- Embedding of the per-cell body of `useGridData`: priority 1 is the first
matching global staff override (the per-staff list preserves storage
order), then the first containing session, then the first matching
session-level override, then the assignment's default role. -/
def resolveCell (slot : String) (staffId : String) (sessions : List Session)
    (assignments : List Assignment) (roles : List Role)
    (staffOverrides : List StaffOverride) : CellInfo :=
  let slotMin := timeToMinutes slot
  match (staffOverrides.filter (fun so => so.staffId == staffId)).find? (globalMatch slotMin) with
  | some ov =>
    let role := roleLookup roles ov.roleId
    { sessionId := none, roleId := some ov.roleId
      roleName := (role.map Role.name).getD ""
      roleColor := (role.map Role.color).getD ""
      roleTextColor := (role.map Role.textColor).getD ""
      sessionTitle := "", isOverride := true, isGlobalOverride := true
      note := ov.note.getD ""
      milestones := globalCellMilestones sessions slotMin slot }
  | none =>
    match sessionForSlot sessions slotMin with
    | none => EMPTY_CELL
    | some sess => resolveForSession slot staffId sessions assignments roles sess

/-- One staff column of `gridData`: the resolver applied to every slot. -/
def gridColumn (timeSlots : List String) (staffId : String) (sessions : List Session)
    (assignments : List Assignment) (roles : List Role)
    (staffOverrides : List StaffOverride) : List CellInfo :=
  timeSlots.map (fun slot => resolveCell slot staffId sessions assignments roles staffOverrides)

/- ================== Run-length merge (mergedGrid, shift-grid.tsx) ================== -/

/-- Merged cell of a staff column. -/
structure MergedCell where
  rowSpan : Nat
  info : CellInfo
  isFirst : Bool
deriving DecidableEq

/-- The `sameGroup` comparison of the merge loop: equality on
`(sessionId, roleId, isOverride, isGlobalOverride, note)`. -/
def sameGroup (a b : CellInfo) : Bool :=
  a.sessionId == b.sessionId && a.roleId == b.roleId && a.isOverride == b.isOverride &&
  a.isGlobalOverride == b.isGlobalOverride && a.note == b.note

/-- Length of the maximal chain of adjacent `sameGroup` cells continuing a
given cell. -/
def runLen (prev : CellInfo) : List CellInfo → Nat
  | [] => 0
  | x :: xs => if sameGroup prev x then runLen x xs + 1 else 0

/-- Merge loop after the first cell of the column: a cell equal (under
`sameGroup`) to its predecessor gets `rowSpan 0 / isFirst false`; a cell
starting a new run gets `rowSpan` equal to its run length.  Cells keep
their own `info`, exactly as the source writes `gridData[r][col]` into
every `result[r][col]`. -/
def mergeColumnFrom (prev : CellInfo) : List CellInfo → List MergedCell
  | [] => []
  | x :: xs =>
    if sameGroup prev x then { rowSpan := 0, info := x, isFirst := false } :: mergeColumnFrom x xs
    else { rowSpan := runLen x xs + 1, info := x, isFirst := true } :: mergeColumnFrom x xs

/-- Embedding of the per-column run-length merge of `mergedGrid`. -/
def mergeColumn : List CellInfo → List MergedCell
  | [] => []
  | c :: rest => { rowSpan := runLen c rest + 1, info := c, isFirst := true } :: mergeColumnFrom c rest

/-- Slot-by-slot expansion of a merged column: each merged cell covers
`rowSpan` consecutive slots (non-first cells have `rowSpan` 0). -/
def expandColumn : List MergedCell → List CellInfo
  | [] => []
  | m :: rest => List.replicate m.rowSpan m.info ++ expandColumn rest

/- ================== Mutation API (src/unnamed/part_004, useShiftStore) ================== -/

/-- Embedding of `updateData`: apply the updater, then recompute the session
chain unless `skipRecompute` is set. -/
def updateDataApply (prev : ShiftData) (updater : ShiftData → ShiftData)
    (skipRecompute : Bool) : ShiftData :=
  let raw := updater prev
  if skipRecompute then raw
  else { raw with sessions := recomputeSessionTimes raw.sessions raw.days }

/-- Replace the first element satisfying a predicate; models the source's
`findIndex` followed by a `map` that rewrites only that index. -/
def replaceFirst (p : α → Bool) (f : α → α) : List α → List α
  | [] => []
  | x :: xs => if p x then f x :: xs else x :: replaceFirst p f xs

/-- Match on the `(sessionId, staffId)` key of an assignment. -/
def pairMatch (sid stid : String) (a : Assignment) : Bool :=
  a.sessionId == sid && a.staffId == stid

/-- First assignment for a pair, as `prev.assignments.find(...)` /
`findIndex` see it. -/
def pairFind (assignments : List Assignment) (sid stid : String) : Option Assignment :=
  assignments.find? (pairMatch sid stid)

/-- Embedding of `setAssignment`: empty role removes the pair's assignment,
otherwise the first existing assignment gets only its `roleId` replaced, or
a fresh assignment with empty overrides is appended. -/
def setAssignment (d : ShiftData) (sid stid rid : String) : ShiftData :=
  updateDataApply d
    (fun prev =>
      { prev with
        assignments :=
          if rid == "" then prev.assignments.filter (fun a => !pairMatch sid stid a)
          else if prev.assignments.any (pairMatch sid stid) then
            replaceFirst (pairMatch sid stid) (fun a => { a with roleId := rid }) prev.assignments
          else
            prev.assignments ++ [{ sessionId := sid, staffId := stid, roleId := rid
                                   note := none, overrides := [] }] })
    false

/-- Partial update of an override, mirroring `{...o, ...updates}` for
`updates : Partial<Omit<Override, 'id'>>`. -/
structure OverridePatch where
  startOffsetMinutes : Option Int
  endOffsetMinutes : Option Int
  roleId : Option String
  note : Option String
deriving DecidableEq

/-- Spread-merge of an override patch. -/
def applyOvPatch (o : Override) (p : OverridePatch) : Override :=
  { o with
    startOffsetMinutes := match p.startOffsetMinutes with | some v => some v | none => o.startOffsetMinutes
    endOffsetMinutes := match p.endOffsetMinutes with | some v => some v | none => o.endOffsetMinutes
    roleId := p.roleId.getD o.roleId
    note := match p.note with | some v => some v | none => o.note }

/-- Embedding of `addOverride`; `newId` stands for the fresh `generateId()`
value.  This is the one override/milestone mutation that passes
`skipRecompute = true`. -/
def addOverride (d : ShiftData) (sid stid : String) (ov : Override) (newId : String) : ShiftData :=
  updateDataApply d
    (fun prev =>
      { prev with
        assignments := prev.assignments.map (fun a =>
          if pairMatch sid stid a then { a with overrides := a.overrides ++ [{ ov with id := newId }] }
          else a) })
    true

/-- Embedding of `updateOverride` (no `skipRecompute` argument, so the chain
calculator runs). -/
def updateOverride (d : ShiftData) (sid stid ovId : String) (p : OverridePatch) : ShiftData :=
  updateDataApply d
    (fun prev =>
      { prev with
        assignments := prev.assignments.map (fun a =>
          if pairMatch sid stid a then
            { a with overrides := a.overrides.map (fun o => if o.id == ovId then applyOvPatch o p else o) }
          else a) })
    false

/-- Embedding of `removeOverride` (chain calculator runs). -/
def removeOverride (d : ShiftData) (sid stid ovId : String) : ShiftData :=
  updateDataApply d
    (fun prev =>
      { prev with
        assignments := prev.assignments.map (fun a =>
          if pairMatch sid stid a then
            { a with overrides := a.overrides.filter (fun o => !(o.id == ovId)) }
          else a) })
    false

/-- Partial update of a milestone, mirroring
`Partial<Omit<Milestone, 'id'>>`. -/
structure MilestonePatch where
  offsetMinutes : Option Int
  label : Option String
deriving DecidableEq

/-- Spread-merge of a milestone patch. -/
def applyMsPatch (m : Milestone) (p : MilestonePatch) : Milestone :=
  { m with
    offsetMinutes := p.offsetMinutes.getD m.offsetMinutes
    label := p.label.getD m.label }

/-- Embedding of `addMilestone` (chain calculator runs). -/
def addMilestone (d : ShiftData) (sid : String) (ms : Milestone) (newId : String) : ShiftData :=
  updateDataApply d
    (fun prev =>
      { prev with
        sessions := prev.sessions.map (fun s =>
          if s.id == sid then { s with milestones := s.milestones ++ [{ ms with id := newId }] }
          else s) })
    false

/-- Embedding of `updateMilestone` (chain calculator runs). -/
def updateMilestone (d : ShiftData) (sid msId : String) (p : MilestonePatch) : ShiftData :=
  updateDataApply d
    (fun prev =>
      { prev with
        sessions := prev.sessions.map (fun s =>
          if s.id == sid then
            { s with milestones := s.milestones.map (fun m => if m.id == msId then applyMsPatch m p else m) }
          else s) })
    false

/-- Embedding of `removeMilestone` (chain calculator runs). -/
def removeMilestone (d : ShiftData) (sid msId : String) : ShiftData :=
  updateDataApply d
    (fun prev =>
      { prev with
        sessions := prev.sessions.map (fun s =>
          if s.id == sid then { s with milestones := s.milestones.filter (fun m => !(m.id == msId)) }
          else s) })
    false

/- ============ CSV ingestion state machine (src/unnamed/part_002, parseCSV v2) ============ -/

/-- Character-level whitespace trim, mirroring JS `String.prototype.trim`
on the ASCII whitespace appearing in CSV cells; written over the character
list so that it evaluates inside the kernel. -/
def jsTrim (s : String) : String :=
  ⟨((s.toList.dropWhile Char.isWhitespace).reverse.dropWhile Char.isWhitespace).reverse⟩

/-- Anchored test for `/^\d{1,2}:\d{2}$/`. -/
def isTimeStr (t : String) : Bool :=
  match t.toList with
  | [h1, c, m1, m2] => h1.isDigit && c == ':' && m1.isDigit && m2.isDigit
  | [h1, h2, c, m1, m2] => h1.isDigit && h2.isDigit && c == ':' && m1.isDigit && m2.isDigit
  | _ => false

/-- Date separator accepted by `DATE_REGEX`. -/
def isDateSep (c : Char) : Bool := c == '/' || c == '-'

/-- Day component of `DATE_REGEX` (`\d{1,2}` greedy, trailing). -/
def tryDayDigits (y m : List Char) : List Char → Option (List Char × List Char × List Char)
  | d1 :: d2 :: _ =>
    if d1.isDigit && d2.isDigit then some (y, m, [d1, d2])
    else if d1.isDigit then some (y, m, [d1]) else none
  | [d1] => if d1.isDigit then some (y, m, [d1]) else none
  | [] => none

/-- Match of `DATE_REGEX` at the start of a character list, with the
regex's greedy-then-backtrack behaviour on the month group. -/
def tryDateAt : List Char → Option (List Char × List Char × List Char)
  | a :: b :: c :: d :: e :: rest =>
    if a.isDigit && b.isDigit && c.isDigit && d.isDigit && isDateSep e then
      (match rest with
       | m1 :: m2 :: f :: r2 =>
         if m1.isDigit && m2.isDigit && isDateSep f then tryDayDigits [a, b, c, d] [m1, m2] r2
         else none
       | _ => none).orElse
      (fun _ =>
        match rest with
        | m1 :: f :: r2 =>
          if m1.isDigit && isDateSep f then tryDayDigits [a, b, c, d] [m1] r2 else none
        | _ => none)
    else none
  | _ => none

/-- Unanchored search of `DATE_REGEX`, first position wins. -/
def searchDate : List Char → Option (List Char × List Char × List Char)
  | [] => none
  | x :: xs => (tryDateAt (x :: xs)).orElse (fun _ => searchDate xs)

/-- Day component of `JP_DATE_REGEX` (`\d{1,2}日` greedy-then-backtrack). -/
def tryJpDay (m : List Char) : List Char → Option (List Char × List Char)
  | d1 :: d2 :: rest =>
    if d1.isDigit && d2.isDigit then
      match rest with
      | h :: _ => if h == '日' then some (m, [d1, d2])
                  else if d2 == '日' then some (m, [d1]) else none
      | [] => if d2 == '日' then some (m, [d1]) else none
    else if d1.isDigit && d2 == '日' then some (m, [d1])
    else none
  | _ => none

/-- Match of `JP_DATE_REGEX` at the start of a character list. -/
def tryJpAt : List Char → Option (List Char × List Char)
  | m1 :: m2 :: rest =>
    (if m1.isDigit && m2.isDigit then
       match rest with
       | g :: r2 => if g == '月' then tryJpDay [m1, m2] r2 else none
       | [] => none
     else none).orElse
    (fun _ => if m1.isDigit && m2 == '月' then tryJpDay [m1] rest else none)
  | _ => none

/-- Unanchored search of `JP_DATE_REGEX`. -/
def searchJp : List Char → Option (List Char × List Char)
  | [] => none
  | x :: xs => (tryJpAt (x :: xs)).orElse (fun _ => searchJp xs)

/-- Embedding of `detectDateInRow`: per cell the ISO pattern is tried
first, then the Japanese pattern; the ISO result zero-pads month and day. -/
def detectDateInRow (row : List String) : Option String :=
  row.findSome? (fun cell =>
    let t := jsTrim cell
    match searchDate t.toList with
    | some (y, m, d) =>
      some ((⟨y⟩ : String) ++ "-" ++ (⟨padZeroTo 2 m⟩ : String) ++ "-" ++ (⟨padZeroTo 2 d⟩ : String))
    | none =>
      match searchJp t.toList with
      | some (m, d) => some ((⟨m⟩ : String) ++ "月" ++ (⟨d⟩ : String) ++ "日")
      | none => none)

/-- Embedding of `isStaffHeaderRow`: at least three cells, and at least two
cells from column 1 on that are non-empty, not time-shaped, not date-like
and shorter than 20 characters.  JS measures `length` in UTF-16 units;
for the BMP characters of this application that equals the character
count used here. -/
def isStaffHeaderRow (row : List String) : Bool :=
  decide (3 ≤ row.length) &&
  decide (2 ≤ (row.drop 1).countP (fun cell =>
    let t := jsTrim cell
    t ≠ "" && !isTimeStr t && (searchDate t.toList).isNone && (searchJp t.toList).isNone &&
    decide (t.length < 20)))

/-- Embedding of `isTimeRow`. -/
def isTimeRow (row : List String) : Bool :=
  match row with
  | [] => false
  | c :: _ => isTimeStr (jsTrim c)

/-- Parser state-machine states. -/
inductive SMState where
  | seekDay
  | seekHeader
  | readingData
deriving DecidableEq

/-- Active run tracked per staff column. -/
structure ActiveRun where
  roleName : String
  startTime : String
deriving DecidableEq

/-- Per-day summary returned by the parser. -/
structure DayResult where
  dayId : Int
  dateLabel : String
  sessions : List Session
  assignments : List Assignment
  sessionCount : Nat
deriving DecidableEq

/-- Structured result of the CSV parser. -/
structure ParsedResult where
  staff : List StaffMember
  days : List DayConfig
  sessions : List Session
  roles : List Role
  assignments : List Assignment
  dayResults : List DayResult
  warnings : List String
deriving DecidableEq

/-- Mutable accumulators of `parseCSV`.  `generateId()` produces opaque
unique ids; it is modelled by the counter `nextId`.  The JS variable
`daySessionCount` is written but never read downstream and is omitted. -/
structure PState where
  roleAssoc : List (String × Role)
  allRoles : List Role
  globalStaffNames : List String
  globalStaff : List StaffMember
  dayResults : List DayResult
  allSessions : List Session
  allAssignments : List Assignment
  allDays : List DayConfig
  sm : SMState
  currentDayId : Int
  currentDateLabel : String
  activePerStaff : List (Option ActiveRun)
  lastTime : String
  nextId : Nat
deriving DecidableEq

/-- Model of `generateId()`. -/
def genId (n : Nat) : String := "id-" ++ natToString n

/-- The fixed role colour palette of the parser. -/
def rolePalette : List String :=
  ["#ef4444", "#3b82f6", "#22c55e", "#eab308", "#a855f7",
   "#ec4899", "#14b8a6", "#f97316", "#6366f1", "#84cc16"]

/-- Embedding of `getOrCreateRole`: empty names yield no role; an unseen
name becomes a new role coloured from the palette by `allRoles.length %
palette.length` with white text. -/
def getOrCreateRole (st : PState) (name : String) : PState × Option Role :=
  if name == "" then (st, none)
  else
    match st.roleAssoc.reverse.find? (fun e => e.1 == name) with
    | some e => (st, some e.2)
    | none =>
      let role : Role :=
        { id := genId st.nextId, name := name
          color := rolePalette.getD (st.allRoles.length % rolePalette.length) ""
          textColor := "#ffffff" }
      ({ st with roleAssoc := st.roleAssoc ++ [(name, role)]
                 allRoles := st.allRoles ++ [role], nextId := st.nextId + 1 },
       some role)

/-- Close the active run of staff column `si` at `endTime`: find or create
the session for `(currentDayId, runStart, endTime)`, find or create the
role, append the assignment, and clear the column's active run.  This is
the body shared by `finishActiveRuns` and the two inline closes inside the
`READING_DATA` column loop, which are textually identical in the source. -/
def closeRun (st : PState) (si : Nat) (endTime : String) : PState :=
  match st.activePerStaff.getD si none with
  | none => st
  | some a =>
    let found := st.allSessions.find? (fun s =>
      s.dayId == st.currentDayId && s.startTime == a.startTime && s.endTime == endTime)
    let stSess :=
      match found with
      | some s => (st, s)
      | none =>
        let s : Session :=
          { id := genId st.nextId, dayId := st.currentDayId
            title := if a.roleName == "" then "セッション" else a.roleName
            durationMinutes := none, startTime := a.startTime, endTime := endTime
            milestones := [] }
        ({ st with allSessions := st.allSessions ++ [s], nextId := st.nextId + 1 }, s)
    let stRole := getOrCreateRole stSess.1 a.roleName
    let st3 :=
      match stRole.2 with
      | some role =>
        { stRole.1 with
          allAssignments := stRole.1.allAssignments ++
            [({ sessionId := stSess.2.id
                staffId := (stRole.1.globalStaff.getD si ({ id := "", name := "" } : StaffMember)).id
                roleId := role.id, note := none, overrides := [] } : Assignment)] }
      | none => stRole.1
    { st3 with activePerStaff := st3.activePerStaff.set si none }

/-- Embedding of `finishActiveRuns`. -/
def finishActiveRuns (st : PState) (endTime : String) : PState :=
  (List.range st.globalStaffNames.length).foldl (fun acc si => closeRun acc si endTime) st

/-- Embedding of `finalizeCurrentDay`: close remaining runs at `lastTime +
5` minutes (the inlined arithmetic of the source is exactly
`minutesToTime (timeToMinutes lastTime + 5)`), then record the day. -/
def finalizeCurrentDay (st : PState) : PState :=
  if st.currentDayId == 0 then st
  else
    let st1 := if st.lastTime == "" then st
               else finishActiveRuns st (minutesToTime (timeToMinutes st.lastTime + 5))
    let daySessions := st1.allSessions.filter (fun s => s.dayId == st1.currentDayId)
    let dayAssignments := st1.allAssignments.filter (fun a => daySessions.any (fun s => s.id == a.sessionId))
    { st1 with dayResults := st1.dayResults ++
        [{ dayId := st1.currentDayId, dateLabel := st1.currentDateLabel
           sessions := daySessions, assignments := dayAssignments
           sessionCount := daySessions.length }] }

/-- Embedding of `startNewDay`. -/
def startNewDay (st : PState) (dateLabel : String) : PState :=
  let st1 := finalizeCurrentDay st
  let newDay := st1.currentDayId + 1
  { st1 with
    currentDayId := newDay, currentDateLabel := dateLabel
    allDays := st1.allDays ++
      [{ id := newDay, label := "Day " ++ intToString newDay, date := some dateLabel, dayStartTime := none }]
    activePerStaff := st1.globalStaffNames.map (fun _ => none)
    lastTime := "" }

/-- Staff extraction from a header row: names are the trimmed non-empty
cells from column 1 on, each given a fresh id in order. -/
def extractStaff (st : PState) (row : List String) : PState :=
  let names := ((row.drop 1).map jsTrim).filter (fun n => n ≠ "")
  let built := names.foldl
    (fun (acc : List StaffMember × Nat) n => (acc.1 ++ [{ id := genId acc.2, name := n }], acc.2 + 1))
    ([], st.nextId)
  { st with globalStaffNames := names, globalStaff := built.1, nextId := built.2
            activePerStaff := names.map (fun _ => none) }

/-- The `READING_DATA` handling of a time row: pad the tick to `HH:MM`,
then per staff column close a changed run, open a new run on a changed
non-blank value, close on a newly blank value, and finally record the
tick as `lastTime`. -/
def processTimeRow (st : PState) (row : List String) : PState :=
  let timeCell : String := ⟨padZeroTo 5 (jsTrim (row.getD 0 "")).toList⟩
  let st1 := (List.range st.globalStaffNames.length).foldl
    (fun acc si =>
      let cellValue := jsTrim (row.getD (si + 1) "")
      let acc1 :=
        match acc.activePerStaff.getD si none with
        | some pa => if pa.roleName ≠ cellValue then closeRun acc si timeCell else acc
        | none => acc
      if cellValue ≠ "" then
        match acc1.activePerStaff.getD si none with
        | none =>
          { acc1 with activePerStaff := acc1.activePerStaff.set si (some { roleName := cellValue, startTime := timeCell }) }
        | some a2 =>
          if a2.roleName ≠ cellValue then
            { acc1 with activePerStaff := acc1.activePerStaff.set si (some { roleName := cellValue, startTime := timeCell }) }
          else acc1
      else
        match acc1.activePerStaff.getD si none with
        | some _ => closeRun acc1 si timeCell
        | none => acc1)
    st
  { st1 with lastTime := timeCell }

/-- One step of the row loop.  In `SEEK_HEADER`, a time row with a known
staff list resets the active runs and is re-processed in `READING_DATA`
(the source decrements the row index; since the row is time-shaped the
re-processing is exactly `processTimeRow`). -/
def processRow (st : PState) (row : List String) : PState :=
  match st.sm with
  | .seekDay =>
    match detectDateInRow row with
    | some date => { startNewDay st date with sm := .seekHeader }
    | none =>
      if isStaffHeaderRow row then
        let st1 := startNewDay st ""
        let st2 := if st1.globalStaffNames.isEmpty then extractStaff st1 row else st1
        { st2 with sm := .readingData }
      else st
  | .seekHeader =>
    if isStaffHeaderRow row then
      let st1 := if st.globalStaffNames.isEmpty then extractStaff st row else st
      { st1 with sm := .readingData }
    else if isTimeRow row && !st.globalStaffNames.isEmpty then
      processTimeRow
        { st with activePerStaff := st.globalStaffNames.map (fun _ => none), sm := .readingData }
        row
    else st
  | .readingData =>
    match detectDateInRow row with
    | some date =>
      if !isTimeRow row then { startNewDay st date with sm := .seekHeader }
      else processTimeRow st row
    | none => if isTimeRow row then processTimeRow st row else st

/-- Initial parser state. -/
def initPState (currentRoles : List Role) : PState :=
  { roleAssoc := currentRoles.map (fun r => (r.name, r)), allRoles := currentRoles
    globalStaffNames := [], globalStaff := [], dayResults := [], allSessions := []
    allAssignments := [], allDays := [], sm := .seekDay, currentDayId := 0
    currentDateLabel := "", activePerStaff := [], lastTime := "", nextId := 0 }

/-- Embedding of the state-machine `parseCSV` over already-split rows:
run the row loop, finalize the last day, merge sessions sharing
`(dayId, startTime, endTime)` (first occurrence kept, assignments
re-pointed), and build the feedback messages. -/
def parseCSVRows (rows : List (List String)) (currentRoles : List Role) : ParsedResult :=
  let stF := rows.foldl processRow (initPState currentRoles)
  let stG := finalizeCurrentDay stF
  let dedup := stG.allSessions.foldl
    (fun (acc : List Session × List (String × String)) session =>
      match acc.1.find? (fun s =>
          s.dayId == session.dayId && s.startTime == session.startTime && s.endTime == session.endTime) with
      | some ex => (acc.1, acc.2 ++ [(session.id, ex.id)])
      | none => (acc.1 ++ [session], acc.2 ++ [(session.id, session.id)]))
    ([], [])
  let mergedSessions := dedup.1
  let remappedAssignments := stG.allAssignments.map (fun a =>
    { a with sessionId := ((dedup.2.find? (fun e => e.1 == a.sessionId)).map (fun e => e.2)).getD a.sessionId })
  let w1 := if stG.globalStaff.isEmpty then []
            else [natToString stG.globalStaff.length ++ "名のスタッフを検出しました。"]
  let w2 := stG.dayResults.map (fun dr =>
    let label := if dr.dateLabel == "" then "Day " ++ intToString dr.dayId else dr.dateLabel
    label ++ ": " ++ natToString (mergedSessions.countP (fun s => s.dayId == dr.dayId)) ++ "セッションを読み込みました。")
  let w3 := if stG.dayResults.isEmpty && stG.globalStaff.isEmpty then
              ["データを検出できませんでした。日付行やスタッフ名行があるCSV形式を使用してください。"]
            else []
  let finalDays :=
    if stG.allDays.isEmpty then
      [{ id := 1, label := "Day 1", date := none, dayStartTime := none },
       { id := 2, label := "Day 2", date := none, dayStartTime := none }]
    else stG.allDays
  { staff := stG.globalStaff, days := finalDays, sessions := mergedSessions
    roles := stG.allRoles, assignments := remappedAssignments
    dayResults := stG.dayResults, warnings := w1 ++ w2 ++ w3 }

/-- Split decoded CSV text into rows of cells.  For quote-free input,
`Papa.parse` reduces to splitting rows on newlines and fields on commas. -/
def csvRows (text : String) : List (List String) :=
  (splitOnSep '\n' text.toList).map (fun line => (splitOnSep ',' line).map (fun cs => (⟨cs⟩ : String)))

/- ============ Project import validation (src/components/project-io.tsx) ============ -/

/-- Parsed JSON value, as handed to `validateProjectData` by `JSON.parse`. -/
inductive Json where
  | null
  | bool (b : Bool)
  | num (n : Int)
  | str (s : String)
  | arr (elems : List Json)
  | obj (fields : List (String × Json))

/-- Key presence test, the `key in obj` check. -/
def hasKey (fields : List (String × Json)) (k : String) : Bool :=
  fields.any (fun e => e.1 == k)

/-- Property read `obj.key`; `JSON.parse` keeps the last duplicate key. -/
def jlookup (fields : List (String × Json)) (k : String) : Option Json :=
  (fields.reverse.find? (fun e => e.1 == k)).map (fun e => e.2)

/-- The `Array.isArray` test. -/
def isArr : Json → Bool
  | .arr _ => true
  | _ => false

/-- The `REQUIRED_FIELDS` list. -/
def REQUIRED_FIELDS : List String :=
  ["staff", "roles", "sessions", "assignments", "days", "gridStartTime", "gridEndTime"]

/-- The five fields checked with `Array.isArray`, in source order. -/
def ARRAY_FIELDS : List String :=
  ["staff", "roles", "sessions", "assignments", "days"]

/-- Result of validation, mirroring the discriminated union
`{valid: true, data} | {valid: false, error}`. -/
inductive ValidateResult where
  | valid
  | invalid (error : String)
deriving DecidableEq

/-- Error message for a missing-fields failure. -/
def missingMsg (fields : List (String × Json)) : String :=
  "必須フィールドが不足しています: " ++
    String.intercalate ", " (REQUIRED_FIELDS.filter (fun k => !hasKey fields k))

/-- Error message for a non-array field. -/
def arrayMsg (k : String) : String :=
  k ++ " フィールドが配列ではありません。"

/-- First of the five array fields whose value is not an array; the source
checks them in this fixed order with one `if` each. -/
def firstBadArray (fields : List (String × Json)) : Option String :=
  ARRAY_FIELDS.find? (fun k => !isArr ((jlookup fields k).getD Json.null))

/-- Shared body for JS values of `typeof === 'object'` (objects and
arrays; an array exposes none of the required string keys). -/
def validateFields (fields : List (String × Json)) : ValidateResult :=
  if (REQUIRED_FIELDS.filter (fun k => !hasKey fields k)).isEmpty then
    match firstBadArray fields with
    | some k => .invalid (arrayMsg k)
    | none => .valid
  else .invalid (missingMsg fields)

/-- Embedding of `validateProjectData`: `!data || typeof data !== 'object'`
rejects `null` and primitives outright; objects (and arrays, which are
`typeof 'object'` in JS but have no matching keys) go through the missing
and array checks.  No deeper entity shape is inspected. -/
def validateProjectData : Json → ValidateResult
  | .obj fields => validateFields fields
  | .arr _ => validateFields []
  | _ => .invalid "ファイルの内容がJSON形式ではありません。"

/- ============== Derived definitions used by the statements below ============== -/

/-- Chained stamping of a single day group from a running minute: the shape
of the chain loop restricted to one `dayId`. -/
def chainStamped (cur : Int) : List Session → List Session
  | [] => []
  | s :: rest => stamp s cur :: chainStamped (cur + effDuration s.durationMinutes) rest

/-- The data of a session list that the chain calculator's times depend on:
the `(dayId, effective duration)` sequence. -/
def dayDurKey (l : List Session) : List (Int × Int) :=
  l.map (fun s => (s.dayId, effDuration s.durationMinutes))

/-- Pointwise agreement of cached start/end times between two session
lists. -/
def timesEq (l l' : List Session) : Prop :=
  List.Forall₂ (fun u v => u.startTime = v.startTime ∧ u.endTime = v.endTime) l l'

/-- Nonnegative (or absent) stored duration. -/
def durNonneg (s : Session) : Prop :=
  0 ≤ s.durationMinutes.getD 1

instance (s : Session) : Decidable (durNonneg s) :=
  inferInstanceAs (Decidable (0 ≤ s.durationMinutes.getD 1))

/-- Well-formed time string of the shape `H:MM` or `HH:MM`; on such strings
the embedded `timeToMinutes` agrees exactly with the JS original. -/
def wfTime (t : String) : Bool := isTimeStr t

/-- Assignment list with at most one assignment per `(sessionId, staffId)`
pair. -/
def atMostOnePair (l : List Assignment) : Prop :=
  List.Pairwise (fun a b => ¬(a.sessionId = b.sessionId ∧ a.staffId = b.staffId)) l

/- ----- concrete instances used by witnesses and counterexamples ----- -/

/-- The canonical CSV fixture of the specification. -/
def fixtureCSV : String :=
  "2025-07-01\n,田中,鈴木\n09:00,発表,サポート\n09:05,発表,サポート\n09:10,,サポート\n09:15,,"

/-- Fallback session record for list indexing in closed statements. -/
def fallbackSession : Session :=
  { id := "", dayId := 0, title := "", durationMinutes := none, startTime := "", endTime := ""
    milestones := [] }

/-- Fallback staff record for list indexing in closed statements. -/
def fallbackStaff : StaffMember := { id := "", name := "" }

/-- Fallback role record for list indexing in closed statements. -/
def fallbackRole : Role := { id := "", name := "", color := "", textColor := "" }

/-- Session with a negative stored duration (expressible through JSON
import, whose validation checks no entity shapes). -/
def negDurSession : Session :=
  { id := "s1", dayId := 1, title := "t", durationMinutes := some (-1000)
    startTime := "00:00", endTime := "00:00", milestones := [] }

/-- Day whose start time is minute-valid but not zero-padded. -/
def nonCanonDay : DayConfig :=
  { id := 1, label := "Day 1", date := none, dayStartTime := some "9:00" }

/-- Session with duration `-5` for the duration-normalization claim. -/
def minusFiveSession : Session :=
  { id := "s1", dayId := 1, title := "t", durationMinutes := some (-5)
    startTime := "09:00", endTime := "09:30", milestones := [] }

/-- Well-formed two-session day used by witnesses. -/
def witSessions : List Session :=
  [{ id := "s1", dayId := 1, title := "A", durationMinutes := some 30
     startTime := "09:00", endTime := "09:30", milestones := [] },
   { id := "s2", dayId := 1, title := "B", durationMinutes := some 45
     startTime := "09:30", endTime := "10:15", milestones := [] }]

/-- Day list used by witnesses. -/
def witDays : List DayConfig :=
  [{ id := 1, label := "Day 1", date := none, dayStartTime := some "09:00" }]

/-- Chain-normalized document used by the frame-effect witness. -/
def witDoc : ShiftData :=
  { staff := [{ id := "a", name := "A" }], roles := []
    sessions := witSessions
    assignments := [{ sessionId := "s1", staffId := "a", roleId := "r", note := some "n"
                      overrides := [{ id := "o", startOffsetMinutes := some 0
                                      endOffsetMinutes := some 10, roleId := "r2", note := none }] }]
    staffOverrides := [], days := witDays, gridStartTime := "08:00", gridEndTime := "18:00" }

/-- Document whose cached session times are not chain-normalized. -/
def cexDoc : ShiftData :=
  { staff := [{ id := "a", name := "A" }], roles := []
    sessions := [{ id := "s1", dayId := 1, title := "t", durationMinutes := some 30
                   startTime := "00:00", endTime := "00:00", milestones := [] }]
    assignments := [{ sessionId := "s1", staffId := "a", roleId := "r", note := none
                      overrides := [{ id := "o", startOffsetMinutes := some 0
                                      endOffsetMinutes := some 10, roleId := "r2", note := none }] }]
    staffOverrides := []
    days := [{ id := 1, label := "Day 1", date := none, dayStartTime := some "10:00" }]
    gridStartTime := "08:00", gridEndTime := "18:00" }

/-- Override patch with no fields, the JS `{}`. -/
def emptyOvPatch : OverridePatch :=
  { startOffsetMinutes := none, endOffsetMinutes := none, roleId := none, note := none }

/-- Milestone patch with no fields. -/
def emptyMsPatch : MilestonePatch := { offsetMinutes := none, label := none }

/-- Sessions for the resolver-precedence witness. -/
def precSessions : List Session :=
  [{ id := "s1", dayId := 1, title := "T", durationMinutes := some 120
     startTime := "09:00", endTime := "11:00", milestones := [] }]

/-- Assignments for the resolver-precedence witness: a default role and a
session-level override both active at 10:00. -/
def precAssignments : List Assignment :=
  [{ sessionId := "s1", staffId := "st1", roleId := "r-def", note := none
     overrides := [{ id := "ov1", startOffsetMinutes := some 0, endOffsetMinutes := some 120
                     roleId := "r-sess", note := none }] }]

/-- Global staff override active at 10:00 for the same staff member. -/
def precOverrides : List StaffOverride :=
  [{ id := "g1", staffId := "st1", dayId := 1, startTime := "09:30", endTime := "10:30"
     roleId := "r-glob", note := some "" }]

/-- Overlapping un-recomputed sessions for the tie-break witness. -/
def overlapSessions : List Session :=
  [{ id := "late", dayId := 1, title := "L", durationMinutes := some 60
     startTime := "09:05", endTime := "10:05", milestones := [] },
   { id := "early", dayId := 1, title := "E", durationMinutes := some 60
     startTime := "09:00", endTime := "10:00", milestones := [] }]

/-- Column of resolved cells for the merge witness. -/
def mergeWitColumn : List CellInfo :=
  gridColumn ["09:00", "09:05", "09:10"] "st1" precSessions precAssignments [] []

/-- Fields of a JSON document accepted by the import validator; the arrays
deliberately contain junk elements, showing that no deeper shape is
checked. -/
def goodFields : List (String × Json) :=
  [("staff", Json.arr [Json.num 42]), ("roles", Json.arr []),
   ("sessions", Json.arr [Json.str "junk"]), ("assignments", Json.arr []),
   ("days", Json.arr []), ("gridStartTime", Json.str "08:00"),
   ("gridEndTime", Json.str "18:00")]

/-- JSON document accepted by the import validator. -/
def goodJson : Json := Json.obj goodFields

/-- Fallback override record for list indexing in closed statements. -/
def fallbackOverride : Override :=
  { id := "", startOffsetMinutes := none, endOffsetMinutes := none, roleId := "", note := none }

/-- Fallback assignment record for list indexing in closed statements. -/
def fallbackAssignment : Assignment :=
  { sessionId := "", staffId := "", roleId := "", note := none, overrides := [] }

/-- Fallback staff-override record for list indexing in closed statements. -/
def fallbackStaffOverride : StaffOverride :=
  { id := "", staffId := "", dayId := 0, startTime := "", endTime := "", roleId := "", note := none }

/-- Override used by the frame-effect witness. -/
def witOverride : Override :=
  { id := "x", startOffsetMinutes := some 0, endOffsetMinutes := some 5, roleId := "r"
    note := none }

/-- Milestone used by the frame-effect witness. -/
def witMilestone : Milestone := { id := "m", offsetMinutes := 10, label := "配布" }

/-- JSON object with every required key but a non-array `sessions`. -/
def badArrayJson : List (String × Json) :=
  [("staff", Json.arr []), ("roles", Json.arr []), ("sessions", Json.num 7),
   ("assignments", Json.arr []), ("days", Json.arr []),
   ("gridStartTime", Json.str "08:00"), ("gridEndTime", Json.str "18:00")]

/-- Document for the assignment-edge witness. -/
def setAsgDoc : ShiftData :=
  { staff := [{ id := "a", name := "A" }], roles := []
    sessions := witSessions
    assignments := [{ sessionId := "s1", staffId := "a", roleId := "r1", note := some "keep"
                      overrides := [{ id := "o", startOffsetMinutes := some 5
                                      endOffsetMinutes := some 10, roleId := "r2", note := none }] }]
    staffOverrides := [], days := witDays, gridStartTime := "08:00", gridEndTime := "18:00" }

/- ===================== Lemmas: time utilities ===================== -/

theorem digitsToNat_cons_zero (xs : List Char) : digitsToNat ('0' :: xs) = digitsToNat xs := by
  simp [digitsToNat, List.foldl_cons]

theorem digitsToNat_append_one (l : List Char) (c : Char) :
    digitsToNat (l ++ [c]) = digitsToNat l * 10 + (c.toNat - 48) := by
  simp [digitsToNat, List.foldl_append]

theorem digitsToNat_pad (k : Nat) (l : List Char) :
    digitsToNat (List.replicate k '0' ++ l) = digitsToNat l := by
  induction k with
  | zero => simp
  | succ k ih => simpa [List.replicate_succ, digitsToNat_cons_zero] using ih

theorem digitChar_isDigit : ∀ n, n < 10 → (Nat.digitChar n).isDigit = true := by decide

theorem digitChar_val : ∀ n, n < 10 → (Nat.digitChar n).toNat - 48 = n := by decide

theorem natDigitsAux_spec : ∀ fuel n, n < fuel →
    (natDigitsAux fuel n).all Char.isDigit = true ∧ digitsToNat (natDigitsAux fuel n).reverse = n := by
  intro fuel
  induction fuel with
  | zero => omega
  | succ fuel ih =>
    intro n hn
    by_cases h10 : n < 10
    · constructor
      · simp [natDigitsAux, h10, digitChar_isDigit n h10]
      · simp [natDigitsAux, h10, digitsToNat, digitChar_val n h10]
    · have hdiv : n / 10 < n := Nat.div_lt_self (by omega) (by omega)
      have hfuel : n / 10 < fuel := by omega
      obtain ⟨ih1, ih2⟩ := ih (n / 10) hfuel
      have hmod : n % 10 < 10 := Nat.mod_lt _ (by omega)
      constructor
      · simp only [natDigitsAux, if_neg h10, List.all_cons, ih1,
          digitChar_isDigit (n % 10) hmod, Bool.and_self]
      · simp only [natDigitsAux, if_neg h10, List.reverse_cons, digitsToNat_append_one, ih2,
          digitChar_val (n % 10) hmod]
        omega

theorem natChars_all_digit (n : Nat) : (natChars n).all Char.isDigit = true := by
  have := (natDigitsAux_spec (n + 1) n (Nat.lt_succ_self n)).1
  simpa [natChars, List.all_reverse] using this

theorem digitsToNat_natChars (n : Nat) : digitsToNat (natChars n) = n :=
  (natDigitsAux_spec (n + 1) n (Nat.lt_succ_self n)).2

theorem jsNumOfChars_digits (l : List Char) (h : l.all Char.isDigit = true) :
    jsNumOfChars l = Int.ofNat (digitsToNat l) := by
  match l with
  | [] => simp [jsNumOfChars]
  | c :: cs =>
    by_cases hc : c = '-'
    · subst hc
      simp only [List.all_cons, Bool.and_eq_true] at h
      exact absurd h.1 (by decide)
    · have hstep : jsNumOfChars (c :: cs) =
          if (c :: cs).all Char.isDigit then Int.ofNat (digitsToNat (c :: cs)) else 0 := by
        unfold jsNumOfChars
        split
        · next heq => injection heq with h1 _; exact absurd h1 hc
        · rfl
      rw [hstep, if_pos h]

theorem all_digit_pad (k : Nat) (l : List Char) (h : l.all Char.isDigit = true) :
    (padZeroTo k l).all Char.isDigit = true := by
  simp only [padZeroTo, List.all_append, h, Bool.and_true]
  rw [List.all_eq_true]
  intro x hx
  rw [List.eq_of_mem_replicate hx]
  decide

theorem jsNumOfChars_pad_natChars (k n : Nat) :
    jsNumOfChars (padZeroTo k (natChars n)) = Int.ofNat n := by
  rw [jsNumOfChars_digits _ (all_digit_pad k _ (natChars_all_digit n))]
  simp [padZeroTo, digitsToNat_pad, digitsToNat_natChars]

theorem colon_not_mem_of_all_digit (l : List Char) (h : l.all Char.isDigit = true) : ':' ∉ l := by
  intro hmem
  rw [List.all_eq_true] at h
  exact absurd (h _ hmem) (by decide)

theorem splitOnSep_of_not_mem (c : Char) (l : List Char) (h : c ∉ l) :
    splitOnSep c l = [l] := by
  induction l with
  | nil => rfl
  | cons x xs ih =>
    have hx : x ≠ c := fun he => h (he ▸ List.mem_cons_self x xs)
    have hxs : c ∉ xs := fun hm => h (List.mem_cons_of_mem x hm)
    simp only [splitOnSep, beq_iff_eq, if_neg hx, ih hxs]

theorem splitOnSep_app (c : Char) (a b : List Char) (ha : c ∉ a) :
    splitOnSep c (a ++ c :: b) = a :: splitOnSep c b := by
  induction a with
  | nil => simp [splitOnSep]
  | cons x xs ih =>
    have hx : x ≠ c := fun he => ha (he ▸ List.mem_cons_self x xs)
    have hxs : c ∉ xs := fun hm => ha (List.mem_cons_of_mem x hm)
    simp only [List.cons_append, splitOnSep, beq_iff_eq, if_neg hx, List.append_eq]
    rw [ih hxs]

theorem intChars_ofNat (n : Nat) : intChars (Int.ofNat n) = natChars n := by
  have h : ¬ (Int.ofNat n < 0) := by
    rw [Int.not_lt]
    exact Int.ofNat_nonneg n
  simp [intChars, h]

theorem timeToMinutes_minutesToTime (x : Int) (hx : 0 ≤ x) :
    timeToMinutes (minutesToTime x) = x := by
  obtain ⟨n, rfl⟩ : ∃ n : Nat, x = Int.ofNat n := ⟨x.toNat, (Int.toNat_of_nonneg hx).symm⟩
  have hfdiv : (Int.ofNat n).fdiv 60 = Int.ofNat (n / 60) := (Int.ofNat_fdiv n 60).symm
  have htmod : (Int.ofNat n).tmod 60 = Int.ofNat (n % 60) := (Int.ofNat_tmod n 60).symm
  have hA : (padZeroTo 2 (natChars (n / 60))).all Char.isDigit = true :=
    all_digit_pad 2 _ (natChars_all_digit _)
  have hB : (padZeroTo 2 (natChars (n % 60))).all Char.isDigit = true :=
    all_digit_pad 2 _ (natChars_all_digit _)
  have hsplit : splitOnSep ':'
      (padZeroTo 2 (natChars (n / 60)) ++ ':' :: padZeroTo 2 (natChars (n % 60)))
      = [padZeroTo 2 (natChars (n / 60)), padZeroTo 2 (natChars (n % 60))] := by
    rw [splitOnSep_app ':' _ _ (colon_not_mem_of_all_digit _ hA),
      splitOnSep_of_not_mem ':' _ (colon_not_mem_of_all_digit _ hB)]
  unfold minutesToTime
  rw [hfdiv, htmod, intChars_ofNat, intChars_ofNat]
  unfold timeToMinutes
  simp only [String.toList]
  rw [hsplit]
  simp only [jsNumOfChars_pad_natChars]
  have : (n / 60) * 60 + n % 60 = n := by omega
  rw [Int.ofNat_eq_natCast, Int.ofNat_eq_natCast, Int.ofNat_eq_natCast]
  push_cast
  omega

/- ===================== Lemmas: session chain calculator ===================== -/

theorem effDuration_ne_zero (o : Option Int) : effDuration o ≠ 0 := by
  match o with
  | none => simp [effDuration]
  | some k =>
    by_cases hk : k = 0
    · simp [effDuration, hk]
    · simp [effDuration, hk]

theorem effDuration_some_eff (o : Option Int) :
    effDuration (some (effDuration o)) = effDuration o := by
  have h := effDuration_ne_zero o
  show (if effDuration o == 0 then 30 else effDuration o) = effDuration o
  simp [h]

theorem effDuration_nonneg (s : Session) (h : durNonneg s) :
    0 ≤ effDuration s.durationMinutes := by
  unfold durNonneg at h
  match hs : s.durationMinutes with
  | none => simp [effDuration]
  | some k =>
    rw [hs] at h
    simp only [Option.getD_some] at h
    by_cases hk : k = 0
    · simp [effDuration, hk]
    · simpa [effDuration, hk] using h

theorem sumEff_append (a b : List Session) : sumEff (a ++ b) = sumEff a + sumEff b := by
  induction a with
  | nil => simp [sumEff]
  | cons s t ih => simp only [List.cons_append, sumEff, List.append_eq, ih]; omega

theorem stamp_dayId (s : Session) (cur : Int) : (stamp s cur).dayId = s.dayId := rfl

theorem dayDurKey_filter_eq (p p' : List Session) (h : dayDurKey p = dayDurKey p') (d : Int) :
    sumEff (p.filter (fun t => t.dayId == d)) = sumEff (p'.filter (fun t => t.dayId == d)) := by
  induction p generalizing p' with
  | nil =>
    have : p' = [] := by
      have := h.symm
      simpa [dayDurKey, List.map_eq_nil_iff] using this
    subst this
    rfl
  | cons s t ih =>
    match p' with
    | [] => simp [dayDurKey] at h
    | s' :: t' =>
      simp only [dayDurKey, List.map_cons, List.cons.injEq, Prod.mk.injEq] at h
      obtain ⟨⟨hday, hdur⟩, htail⟩ := h
      have ihret := ih t' htail
      by_cases hd : s.dayId = d
      · have hd' : s'.dayId = d := by rw [← hday]; exact hd
        simp only [List.filter_cons, beq_iff_eq, hd, hd', decide_eq_true_eq, if_pos, sumEff,
          decide_True]
        rw [hdur, ihret]
      · have hd' : ¬ s'.dayId = d := by rw [← hday]; exact hd
        simp only [List.filter_cons, beq_iff_eq, hd, hd', decide_eq_true_eq, if_neg,
          not_false_eq_true]
        exact ihret

theorem recomputeGo_filter (days : List DayConfig) :
    ∀ (l p : List Session) (d : Int),
      (recomputeGo days p l).filter (fun s => s.dayId == d)
        = chainStamped (startMin days d + sumEff (p.filter (fun t => t.dayId == d)))
            (l.filter (fun t => t.dayId == d)) := by
  intro l
  induction l with
  | nil => intro p d; simp [recomputeGo, chainStamped]
  | cons s rest ih =>
    intro p d
    by_cases hd : s.dayId = d
    · have hfp : (p ++ [s]).filter (fun t => t.dayId == d)
          = p.filter (fun t => t.dayId == d) ++ [s] := by
        simp [List.filter_append, hd]
      have hcur : startMin days d + sumEff ((p ++ [s]).filter (fun t => t.dayId == d))
          = startMin days d + sumEff (p.filter (fun t => t.dayId == d))
            + effDuration s.durationMinutes := by
        rw [hfp, sumEff_append]
        simp [sumEff]
        omega
      have hstep := ih (p ++ [s]) d
      rw [hcur] at hstep
      simp only [recomputeGo, List.filter_cons, stamp_dayId, beq_iff_eq, hd, decide_eq_true_eq,
        if_pos, decide_True]
      rw [hstep]
      subst hd
      simp [chainStamped]
    · have hfp : (p ++ [s]).filter (fun t => t.dayId == d) = p.filter (fun t => t.dayId == d) := by
        simp [List.filter_append, hd]
      have hstep := ih (p ++ [s]) d
      rw [hfp] at hstep
      simp only [recomputeGo, List.filter_cons, stamp_dayId, beq_iff_eq, hd, decide_eq_true_eq,
        if_neg, not_false_eq_true]
      rw [hstep]

theorem chainStamped_head_start (cur : Int) (l : List Session) (s₀ : Session)
    (h : (chainStamped cur l).head? = some s₀) : s₀.startTime = minutesToTime cur := by
  match l with
  | [] => simp [chainStamped] at h
  | s :: rest =>
    simp only [chainStamped, List.head?_cons, Option.some.injEq] at h
    rw [← h]
    rfl

theorem chainStamped_adj : ∀ (l : List Session) (cur : Int) (i : Nat) (a b : Session),
    (chainStamped cur l).get? i = some a → (chainStamped cur l).get? (i + 1) = some b →
    b.startTime = a.endTime := by
  intro l
  induction l with
  | nil => intro cur i a b ha _; simp [chainStamped] at ha
  | cons s rest ih =>
    intro cur i a b ha hb
    match i with
    | 0 =>
      simp only [chainStamped, List.get?_cons_zero, Option.some.injEq] at ha
      simp only [chainStamped, List.get?_cons_succ] at hb
      match rest, hb with
      | s2 :: r2, hb =>
        simp only [chainStamped, List.get?_cons_zero, Option.some.injEq] at hb
        rw [← ha, ← hb]
        rfl
    | i + 1 =>
      simp only [chainStamped, List.get?_cons_succ] at ha hb
      exact ih _ i a b ha hb

theorem chainStamped_end : ∀ (l : List Session) (cur : Int), 0 ≤ cur →
    (∀ s ∈ l, durNonneg s) →
    ∀ t ∈ chainStamped cur l, ∃ dd, t.durationMinutes = some dd ∧
      timeToMinutes t.endTime = timeToMinutes t.startTime + dd := by
  intro l
  induction l with
  | nil => intro cur _ _ t ht; simp [chainStamped] at ht
  | cons s rest ih =>
    intro cur hcur hdur t ht
    have hdnn : 0 ≤ effDuration s.durationMinutes :=
      effDuration_nonneg s (hdur s (List.mem_cons_self s rest))
    simp only [chainStamped, List.mem_cons] at ht
    match ht with
    | Or.inl he =>
      subst he
      refine ⟨_, rfl, ?_⟩
      show timeToMinutes (minutesToTime (cur + effDuration s.durationMinutes))
          = timeToMinutes (minutesToTime cur) + effDuration s.durationMinutes
      rw [timeToMinutes_minutesToTime _ (by omega), timeToMinutes_minutesToTime _ hcur]
    | Or.inr hm =>
      exact ih (cur + effDuration s.durationMinutes) (by omega)
        (fun u hu => hdur u (List.mem_cons_of_mem s hu)) t hm

theorem dayDurKey_append (a b : List Session) :
    dayDurKey (a ++ b) = dayDurKey a ++ dayDurKey b := by
  simp [dayDurKey]

theorem dayDurKey_stamp (s : Session) (cur : Int) :
    dayDurKey [stamp s cur] = dayDurKey [s] := by
  simp [dayDurKey, stamp, effDuration_some_eff]

theorem stamp_stamp (s : Session) (cur : Int) : stamp (stamp s cur) cur = stamp s cur := by
  simp [stamp, effDuration_some_eff]

theorem recomputeGo_stable (days : List DayConfig) :
    ∀ (l p p' : List Session), dayDurKey p = dayDurKey p' →
      recomputeGo days p' (recomputeGo days p l) = recomputeGo days p l := by
  intro l
  induction l with
  | nil => intro p p' _; rfl
  | cons s rest ih =>
    intro p p' h
    simp only [recomputeGo, stamp_dayId]
    have hsum := dayDurKey_filter_eq p' p h.symm s.dayId
    rw [hsum, stamp_stamp]
    rw [ih (p ++ [s]) (p' ++ [stamp s _]) ?_]
    rw [dayDurKey_append, dayDurKey_append, h, dayDurKey_stamp]

theorem recomputeGo_times (days : List DayConfig) :
    ∀ (l l' p p' : List Session), dayDurKey l = dayDurKey l' → dayDurKey p = dayDurKey p' →
      List.Forall₂ (fun u v => u.startTime = v.startTime ∧ u.endTime = v.endTime)
        (recomputeGo days p l) (recomputeGo days p' l') := by
  intro l
  induction l with
  | nil =>
    intro l' p p' hl _
    have : l' = [] := by simpa [dayDurKey, List.map_eq_nil_iff] using hl.symm
    subst this
    exact List.Forall₂.nil
  | cons s rest ih =>
    intro l' p p' hl hp
    match l' with
    | [] => simp [dayDurKey] at hl
    | s' :: rest' =>
      simp only [dayDurKey, List.map_cons, List.cons.injEq, Prod.mk.injEq] at hl
      obtain ⟨⟨hday, hdur⟩, htail⟩ := hl
      have hsum := dayDurKey_filter_eq p p' hp s.dayId
      simp only [recomputeGo]
      refine List.Forall₂.cons ?_ ?_
      · constructor
        · show minutesToTime _ = minutesToTime _
          rw [← hday, hsum]
        · show minutesToTime _ = minutesToTime _
          rw [← hday, ← hdur, hsum]
      · apply ih rest' (p ++ [s]) (p' ++ [s']) htail
        rw [dayDurKey_append, dayDurKey_append, hp]
        simp [dayDurKey, hday, hdur]

theorem timesEq_refl (l : List Session) : timesEq l l := by
  rw [timesEq, List.forall₂_same]
  intro a _
  exact ⟨rfl, rfl⟩

theorem dayDurKey_map (g : Session → Session) (l : List Session)
    (hg : ∀ s, (g s).dayId = s.dayId ∧ (g s).durationMinutes = s.durationMinutes) :
    dayDurKey (l.map g) = dayDurKey l := by
  simp only [dayDurKey, List.map_map]
  apply List.map_congr_left
  intro s _
  simp [Function.comp, (hg s).1, (hg s).2]

/- ===================== Lemmas: run-length merge ===================== -/

theorem sameGroup_refl (c : CellInfo) : sameGroup c c = true := by
  simp [sameGroup]

theorem sameGroup_iff (a b : CellInfo) : sameGroup a b = true ↔
    a.sessionId = b.sessionId ∧ a.roleId = b.roleId ∧ a.isOverride = b.isOverride ∧
    a.isGlobalOverride = b.isGlobalOverride ∧ a.note = b.note := by
  simp [sameGroup, and_assoc]

theorem sameGroup_trans (a b c : CellInfo) (h1 : sameGroup a b = true)
    (h2 : sameGroup b c = true) : sameGroup a c = true := by
  rw [sameGroup_iff] at h1 h2 ⊢
  obtain ⟨x1, x2, x3, x4, x5⟩ := h1
  obtain ⟨y1, y2, y3, y4, y5⟩ := h2
  exact ⟨x1.trans y1, x2.trans y2, x3.trans y3, x4.trans y4, x5.trans y5⟩

theorem expandColumn_append (a b : List MergedCell) :
    expandColumn (a ++ b) = expandColumn a ++ expandColumn b := by
  induction a with
  | nil => rfl
  | cons m t ih => simp [expandColumn, ih]

theorem expandFrom_forall₂ : ∀ (l : List CellInfo) (prev r : CellInfo),
    sameGroup r prev = true →
    List.Forall₂ (fun m c => sameGroup m c = true)
      (List.replicate (runLen prev l) r ++ expandColumn (mergeColumnFrom prev l)) l := by
  intro l
  induction l with
  | nil => intro prev r _; simp [runLen, mergeColumnFrom, expandColumn]
  | cons x xs ih =>
    intro prev r hrp
    by_cases h : sameGroup prev x = true
    · have hrx : sameGroup r x = true := sameGroup_trans r prev x hrp h
      simp only [runLen, mergeColumnFrom, h, if_pos, expandColumn, List.replicate_succ,
        List.replicate_zero, List.nil_append, List.cons_append]
      exact List.Forall₂.cons hrx (ih x r hrx)
    · simp only [runLen, mergeColumnFrom, h, if_neg, Bool.not_eq_true, expandColumn,
        List.replicate_zero, List.nil_append, List.replicate_succ, List.cons_append]
      exact List.Forall₂.cons (sameGroup_refl x) (ih x x (sameGroup_refl x))

theorem expand_mergeColumn (col : List CellInfo) :
    List.Forall₂ (fun m c => sameGroup m c = true) (expandColumn (mergeColumn col)) col := by
  match col with
  | [] => exact List.Forall₂.nil
  | c :: rest =>
    simp only [mergeColumn, expandColumn, List.replicate_succ, List.cons_append]
    exact List.Forall₂.cons (sameGroup_refl c) (expandFrom_forall₂ rest c c (sameGroup_refl c))

theorem mergeFrom_get_isFirst : ∀ (l : List CellInfo) (prev : CellInfo) (i : Nat) (a b : CellInfo),
    (prev :: l).get? i = some a → (prev :: l).get? (i + 1) = some b →
    ((mergeColumnFrom prev l).get? i).map (fun mc => mc.isFirst) = some (!sameGroup a b) := by
  intro l
  induction l with
  | nil =>
    intro prev i a b _ hb
    match i with
    | 0 => simp at hb
    | i + 1 => simp at hb
  | cons x xs ih =>
    intro prev i a b ha hb
    match i with
    | 0 =>
      have ha2 : a = prev := by
        simp only [List.get?_cons_zero, Option.some.injEq] at ha
        exact ha.symm
      have hb2 : b = x := by
        simp only [List.get?_cons_succ, List.get?_cons_zero, Option.some.injEq] at hb
        exact hb.symm
      subst ha2
      subst hb2
      by_cases h : sameGroup a b = true
      · simp [mergeColumnFrom, h]
      · have h2 : sameGroup a b = false := by simpa using h
        simp [mergeColumnFrom, h2]
    | i + 1 =>
      simp only [List.get?_cons_succ] at ha hb
      have := ih x i a b ha hb
      by_cases h : sameGroup prev x = true
      · simpa [mergeColumnFrom, h] using this
      · simpa [mergeColumnFrom, h] using this

theorem mergeColumn_get_isFirst (col : List CellInfo) (i : Nat) (a b : CellInfo)
    (ha : col.get? i = some a) (hb : col.get? (i + 1) = some b) :
    ((mergeColumn col).get? (i + 1)).map (fun mc => mc.isFirst) = some (!sameGroup a b) := by
  match col with
  | [] => simp at ha
  | c :: rest =>
    simp only [mergeColumn, List.get?_cons_succ]
    exact mergeFrom_get_isFirst rest c i a b ha hb

/- ===================== Lemmas: resolver scan ===================== -/

theorem find?_min_of_sorted {p : Session → Bool} :
    ∀ (l : List Session) (a : Session), l.Sorted sessionLE → l.find? p = some a →
      ∀ b ∈ l, p b = true → sessionLE a b := by
  intro l
  induction l with
  | nil => intro a _ ha; simp at ha
  | cons x xs ih =>
    intro a hs ha b hb hpb
    rw [List.sorted_cons] at hs
    obtain ⟨hx, hxs⟩ := hs
    by_cases hpx : p x = true
    · rw [List.find?_cons_of_pos _ hpx] at ha
      injection ha with ha
      subst ha
      rcases List.mem_cons.mp hb with hbx | hbxs
      · subst hbx; exact le_refl _
      · exact hx b hbxs
    · rw [List.find?_cons_of_neg _ (by simpa using hpx)] at ha
      rcases List.mem_cons.mp hb with hbx | hbxs
      · subst hbx; exact absurd hpb hpx
      · exact ih a hxs ha b hbxs hpb

theorem sessionForSlot_min (sessions : List Session) (slotMin : Int) (s : Session)
    (hs : sessionForSlot sessions slotMin = some s) :
    containsSlot slotMin s = true ∧ s ∈ sessions ∧
      ∀ t ∈ sessions, containsSlot slotMin t = true →
        timeToMinutes s.startTime ≤ timeToMinutes t.startTime := by
  have hsorted : (sortedSessions sessions).Sorted sessionLE :=
    List.sorted_insertionSort sessionLE sessions
  have hperm : (sortedSessions sessions).Perm sessions :=
    List.perm_insertionSort sessionLE sessions
  refine ⟨List.find?_some hs, ?_, ?_⟩
  · exact hperm.mem_iff.mp (List.mem_of_find?_eq_some hs)
  · intro t ht hct
    exact find?_min_of_sorted (sortedSessions sessions) s hsorted hs t
      (hperm.mem_iff.mpr ht) hct

theorem recomputeGo_forall₂_dur (days : List DayConfig) :
    ∀ (l p : List Session),
      List.Forall₂ (fun s t => t.durationMinutes = some (effDuration s.durationMinutes))
        l (recomputeGo days p l) := by
  intro l
  induction l with
  | nil => intro p; exact List.Forall₂.nil
  | cons s rest ih => intro p; exact List.Forall₂.cons rfl (ih (p ++ [s]))

/- ===================== Claims ===================== -/

/-- C6: chaining idempotence — running the Session Chain Calculator twice on
the same `(sessions, days)` input yields exactly the output of running it
once, for every input. -/
theorem c6_chain_idempotent (sessions : List Session) (days : List DayConfig) :
    recomputeSessionTimes (recomputeSessionTimes sessions days) days
      = recomputeSessionTimes sessions days :=
  recomputeGo_stable days sessions [] [] rfl

/-- C3 (amended): in the recomputed output every session's stored duration is
the effective duration of its input, where an unset duration and a duration
of `0` both normalize to the default 30, while any other value — including
negative durations — passes through unchanged; no floor of 1 is applied. -/
theorem c3_duration_normalization (sessions : List Session) (days : List DayConfig) :
    List.Forall₂ (fun s t => t.durationMinutes = some (effDuration s.durationMinutes))
      sessions (recomputeSessionTimes sessions days)
    ∧ effDuration none = 30 ∧ effDuration (some 0) = 30
    ∧ ∀ dd : Int, dd ≠ 0 → effDuration (some dd) = dd := by
  refine ⟨recomputeGo_forall₂_dur days sessions [], rfl, by decide, ?_⟩
  intro dd hdd
  simp [effDuration, hdd]

/-- C3 witness: the amended theorem applied at duration `-5`. -/
theorem c3_duration_normalization_witness :
    ((-5 : Int) ≠ 0) ∧ effDuration (some (-5)) = -5 :=
  ⟨by decide, (c3_duration_normalization [] []).2.2.2 (-5) (by decide)⟩

/-- C3 counterexample: a session with stored duration `-5` keeps `-5` in the
recomputed output, so the claimed floor of at least 1 on nonpositive
durations does not hold. -/
theorem c3_counterexample :
    ((recomputeSessionTimes [minusFiveSession] []).all
      (fun t => match t.durationMinutes with
        | some dd => decide (1 ≤ dd)
        | none => true)) = false := by decide

/-- C2 (amended): for every day id whose effective start string is a
canonical nonnegative `HH:MM` rendering and for nonnegative stored
durations, the recomputed sessions of that day, in array order, start at
the day's effective start string, are gapless and overlap-free (each
session starts exactly where the previous one ends, as strings), and each
session's parsed end time is its parsed start time plus its stored
duration. -/
theorem c2_chain_invariant (sessions : List Session) (days : List DayConfig) (d : Int)
    (hcanon : minutesToTime (timeToMinutes (dayStartStrOf days d)) = dayStartStrOf days d)
    (hpos : 0 ≤ timeToMinutes (dayStartStrOf days d))
    (hdur : ∀ s ∈ sessions, durNonneg s) :
    (∀ s₀, ((recomputeSessionTimes sessions days).filter (fun s => s.dayId == d)).head? = some s₀ →
        s₀.startTime = dayStartStrOf days d)
    ∧ (∀ i a b,
        ((recomputeSessionTimes sessions days).filter (fun s => s.dayId == d)).get? i = some a →
        ((recomputeSessionTimes sessions days).filter (fun s => s.dayId == d)).get? (i + 1) = some b →
        b.startTime = a.endTime)
    ∧ (∀ t ∈ (recomputeSessionTimes sessions days).filter (fun s => s.dayId == d),
        ∃ dd, t.durationMinutes = some dd ∧
          timeToMinutes t.endTime = timeToMinutes t.startTime + dd) := by
  have hfil : (recomputeSessionTimes sessions days).filter (fun s => s.dayId == d)
      = chainStamped (startMin days d) (sessions.filter (fun t => t.dayId == d)) := by
    have h := recomputeGo_filter days sessions [] d
    simpa [recomputeSessionTimes, sumEff] using h
  refine ⟨?_, ?_, ?_⟩
  · intro s₀ hh
    rw [hfil] at hh
    rw [chainStamped_head_start _ _ _ hh]
    exact hcanon
  · intro i a b ha hb
    rw [hfil] at ha hb
    exact chainStamped_adj _ _ i a b ha hb
  · intro t ht
    rw [hfil] at ht
    exact chainStamped_end _ _ hpos
      (fun s hs => hdur s (List.mem_of_mem_filter hs)) t ht

/-- C2 witness: the amended theorem applied to a two-session day starting at
"09:00", instantiated at the first pair of recomputed sessions. -/
theorem c2_chain_invariant_witness :
    (((recomputeSessionTimes witSessions witDays).filter (fun s => s.dayId == 1)).getD 0
        fallbackSession).startTime = dayStartStrOf witDays 1
    ∧ (((recomputeSessionTimes witSessions witDays).filter (fun s => s.dayId == 1)).getD 1
        fallbackSession).startTime
      = (((recomputeSessionTimes witSessions witDays).filter (fun s => s.dayId == 1)).getD 0
        fallbackSession).endTime := by
  have h := c2_chain_invariant witSessions witDays 1 (by decide) (by decide) (by decide)
  exact ⟨h.1 _ (by decide), h.2.1 0 _ _ (by decide) (by decide)⟩

/-- C2 counterexample: with a day whose `dayStartTime` is the minute-valid
but non-zero-padded string "9:00" and a session of stored duration `-1000`,
the first recomputed session's `startTime` is "09:00", not the day's
`dayStartTime` "9:00", and the parsed end time differs from the parsed
start time plus the duration — so the claim as stated, quantified over all
session and day-config lists, fails. -/
theorem c2_counterexample :
    (((recomputeSessionTimes [negDurSession] [nonCanonDay]).map (fun s => s.startTime))
        == ["9:00"]) = false
    ∧ ((recomputeSessionTimes [negDurSession] [nonCanonDay]).map (fun s => s.startTime))
        = ["09:00"]
    ∧ nonCanonDay.dayStartTime = some "9:00"
    ∧ ((recomputeSessionTimes [negDurSession] [nonCanonDay]).all (fun t =>
        match t.durationMinutes with
        | some dd => timeToMinutes t.endTime == timeToMinutes t.startTime + dd
        | none => true)) = false := by
  refine ⟨by decide, by decide, rfl, by decide⟩

theorem milestone_map_key (sid : String) (g : List Milestone → List Milestone)
    (l : List Session) :
    dayDurKey (l.map (fun s => if s.id == sid then { s with milestones := g s.milestones } else s))
      = dayDurKey l := by
  apply dayDurKey_map
  intro s
  by_cases h : (s.id == sid) = true
  · simp [h]
  · simp [h]

theorem recompute_milestone_times (d : ShiftData) (sid : String)
    (g : List Milestone → List Milestone)
    (hfix : d.sessions = recomputeSessionTimes d.sessions d.days) :
    timesEq d.sessions
      (recomputeSessionTimes
        (d.sessions.map (fun s => if s.id == sid then { s with milestones := g s.milestones } else s))
        d.days) := by
  have hkey := milestone_map_key sid g d.sessions
  have h := recomputeGo_times d.days d.sessions
    (d.sessions.map (fun s => if s.id == sid then { s with milestones := g s.milestones } else s))
    [] [] hkey.symm rfl
  rw [timesEq]
  nth_rewrite 1 [hfix]
  exact h

/-- C4 (amended): `addOverride` passes `skipRecompute = true` and leaves the
sessions array untouched for every document; `updateOverride`,
`removeOverride` and the three milestone mutations do invoke the chain
calculator, but since they change no day assignment, duration or order,
they leave every session's `startTime` and `endTime` unchanged whenever the
document's sessions are already chain-normalized. -/
theorem c4_frame_effect (d : ShiftData) (sid stid ovId msId newId : String) (ov : Override)
    (ms : Milestone) (op : OverridePatch) (mp : MilestonePatch) :
    (addOverride d sid stid ov newId).sessions = d.sessions
    ∧ (d.sessions = recomputeSessionTimes d.sessions d.days →
        (updateOverride d sid stid ovId op).sessions = d.sessions
        ∧ (removeOverride d sid stid ovId).sessions = d.sessions
        ∧ timesEq d.sessions (addMilestone d sid ms newId).sessions
        ∧ timesEq d.sessions (updateMilestone d sid msId mp).sessions
        ∧ timesEq d.sessions (removeMilestone d sid msId).sessions) := by
  refine ⟨rfl, ?_⟩
  intro hfix
  refine ⟨?_, ?_, ?_, ?_, ?_⟩
  · show recomputeSessionTimes d.sessions d.days = d.sessions
    exact hfix.symm
  · show recomputeSessionTimes d.sessions d.days = d.sessions
    exact hfix.symm
  · exact recompute_milestone_times d sid
      (fun milestones => milestones ++ [{ ms with id := newId }]) hfix
  · exact recompute_milestone_times d sid
      (fun milestones => milestones.map (fun m => if m.id == msId then applyMsPatch m mp else m))
      hfix
  · exact recompute_milestone_times d sid
      (fun milestones => milestones.filter (fun m => !(m.id == msId))) hfix

/-- C4 witness: the amended theorem applied to a chain-normalized document. -/
theorem c4_frame_effect_witness :
    (witDoc.sessions = recomputeSessionTimes witDoc.sessions witDoc.days)
    ∧ (addOverride witDoc "s1" "a" witOverride "nid").sessions = witDoc.sessions
    ∧ (updateOverride witDoc "s1" "a" "o" emptyOvPatch).sessions = witDoc.sessions
    ∧ timesEq witDoc.sessions (addMilestone witDoc "s1" witMilestone "nid").sessions := by
  have h := c4_frame_effect witDoc "s1" "a" "o" "m" "nid" witOverride witMilestone
    emptyOvPatch emptyMsPatch
  have hfix : witDoc.sessions = recomputeSessionTimes witDoc.sessions witDoc.days := by decide
  exact ⟨hfix, h.1, (h.2 hfix).1, (h.2 hfix).2.2.1⟩

/-- C4 counterexample: on a document whose cached session times are not
chain-normalized, `updateOverride` — one of the operations the claim says
skip the chain calculator — rewrites the sessions' `startTime`, so the
claim as stated fails. -/
theorem c4_counterexample :
    (((updateOverride cexDoc "s1" "a" "o" emptyOvPatch).sessions.map (fun s => s.startTime))
        == (cexDoc.sessions.map (fun s => s.startTime))) = false
    ∧ (cexDoc.sessions.map (fun s => s.startTime)) = ["00:00"]
    ∧ ((updateOverride cexDoc "s1" "a" "o" emptyOvPatch).sessions.map (fun s => s.startTime))
        = ["10:00"] := by
  refine ⟨by decide, by decide, by decide⟩

/-- C1: resolver precedence — whenever a global `StaffOverride` for the
queried staff member covers the slot (the first covering one in storage
order), the resolved cell carries that override's role and is marked as a
global override with no session, even when some session containing the slot
has an assignment for that staff member with a session-level override whose
interval also contains the slot. -/
theorem c1_global_override_precedence
    (slot staffId : String) (sessions : List Session) (assignments : List Assignment)
    (roles : List Role) (staffOverrides : List StaffOverride)
    (ov : StaffOverride) (sess : Session) (a : Assignment) (sov : Override)
    (hov : (staffOverrides.filter (fun so => so.staffId == staffId)).find?
      (globalMatch (timeToMinutes slot)) = some ov)
    (_hsess : sess ∈ sessions)
    (_hcontain : containsSlot (timeToMinutes slot) sess = true)
    (_ha : assignLookup assignments sess.id staffId = some a)
    (_hsov : sov ∈ a.overrides)
    (_hsovMatch : sessOvMatch (timeToMinutes sess.startTime) (timeToMinutes sess.endTime)
      (timeToMinutes slot) sov = true) :
    (resolveCell slot staffId sessions assignments roles staffOverrides).roleId = some ov.roleId
    ∧ (resolveCell slot staffId sessions assignments roles staffOverrides).isGlobalOverride = true
    ∧ (resolveCell slot staffId sessions assignments roles staffOverrides).sessionId = none := by
  simp only [resolveCell]
  rw [hov]
  exact ⟨rfl, rfl, rfl⟩

/-- C1 witness: the precedence theorem applied at 10:00 to a staff member
with a covering global override, a containing session, a default
assignment, and a covering session-level override. -/
theorem c1_global_override_precedence_witness :
    (resolveCell "10:00" "st1" precSessions precAssignments [] precOverrides).roleId
      = some (precOverrides.getD 0 fallbackStaffOverride).roleId
    ∧ (resolveCell "10:00" "st1" precSessions precAssignments [] precOverrides).isGlobalOverride
      = true
    ∧ (resolveCell "10:00" "st1" precSessions precAssignments [] precOverrides).sessionId
      = none :=
  c1_global_override_precedence "10:00" "st1" precSessions precAssignments [] precOverrides
    (precOverrides.getD 0 fallbackStaffOverride) (precSessions.getD 0 fallbackSession)
    (precAssignments.getD 0 fallbackAssignment)
    ((precAssignments.getD 0 fallbackAssignment).overrides.getD 0 fallbackOverride)
    (by decide) (by decide) (by decide) (by decide) (by decide) (by decide)

theorem resolveForSession_sessionId (slot staffId : String) (sessions : List Session)
    (assignments : List Assignment) (roles : List Role) (sess : Session) :
    (resolveForSession slot staffId sessions assignments roles sess).sessionId = some sess.id := by
  simp only [resolveForSession]
  split
  · rfl
  · split
    · rfl
    · rfl

/-- C10: overlapping-session tie-break — when no global override covers the
slot and the scan over the sessions sorted by ascending parsed `startTime`
finds a first session containing the slot, the resolver assigns the slot to
that session, which contains the slot and has a parsed `startTime` no later
than any containing session's.  The well-formedness hypothesis keeps the
inputs in the fragment where the embedded time parsing coincides with the
JS original. -/
theorem c10_overlap_tiebreak
    (slot staffId : String) (sessions : List Session) (assignments : List Assignment)
    (roles : List Role) (staffOverrides : List StaffOverride) (s : Session)
    (hng : (staffOverrides.filter (fun so => so.staffId == staffId)).find?
      (globalMatch (timeToMinutes slot)) = none)
    (hs : sessionForSlot sessions (timeToMinutes slot) = some s)
    (_hwf : ∀ t ∈ sessions, wfTime t.startTime = true ∧ wfTime t.endTime = true) :
    (resolveCell slot staffId sessions assignments roles staffOverrides).sessionId = some s.id
    ∧ containsSlot (timeToMinutes slot) s = true
    ∧ ∀ t ∈ sessions, containsSlot (timeToMinutes slot) t = true →
        timeToMinutes s.startTime ≤ timeToMinutes t.startTime := by
  obtain ⟨hc, _, hmin⟩ := sessionForSlot_min sessions (timeToMinutes slot) s hs
  refine ⟨?_, hc, hmin⟩
  simp only [resolveCell]
  rw [hng, hs]
  show (resolveForSession slot staffId sessions assignments roles s).sessionId = some s.id
  exact resolveForSession_sessionId slot staffId sessions assignments roles s

/-- C10 witness: two overlapping un-recomputed sessions; at slot 09:10 the
resolver picks the session starting 09:00 over the one starting 09:05. -/
theorem c10_overlap_tiebreak_witness :
    (resolveCell "09:10" "st1" overlapSessions [] [] []).sessionId
      = some (overlapSessions.getD 1 fallbackSession).id
    ∧ containsSlot (timeToMinutes "09:10") (overlapSessions.getD 1 fallbackSession) = true
    ∧ timeToMinutes (overlapSessions.getD 1 fallbackSession).startTime
        ≤ timeToMinutes (overlapSessions.getD 0 fallbackSession).startTime := by
  have h := c10_overlap_tiebreak "09:10" "st1" overlapSessions [] [] []
    (overlapSessions.getD 1 fallbackSession) (by decide) (by decide) (by decide)
  exact ⟨h.1, h.2.1, h.2.2 (overlapSessions.getD 0 fallbackSession) (by decide) (by decide)⟩

/-- C5: run-length merge correctness — expanding the merged column back out
slot by slot (each merged cell covering `rowSpan` consecutive slots)
reproduces the per-slot resolution of every staff column on all the merged
fields `(sessionId, roleId, isOverride, isGlobalOverride, note)`, and two
consecutive slots belong to one merged cell exactly when they agree on
those fields. -/
theorem c5_merge_roundtrip (timeSlots : List String) (staffId : String) (sessions : List Session)
    (assignments : List Assignment) (roles : List Role) (staffOverrides : List StaffOverride) :
    List.Forall₂ (fun m c => sameGroup m c = true)
      (expandColumn (mergeColumn
        (gridColumn timeSlots staffId sessions assignments roles staffOverrides)))
      (gridColumn timeSlots staffId sessions assignments roles staffOverrides)
    ∧ ∀ i a b,
        (gridColumn timeSlots staffId sessions assignments roles staffOverrides).get? i = some a →
        (gridColumn timeSlots staffId sessions assignments roles staffOverrides).get? (i + 1)
          = some b →
        ((mergeColumn (gridColumn timeSlots staffId sessions assignments roles
            staffOverrides)).get? (i + 1)).map (fun mc => mc.isFirst)
          = some (!sameGroup a b) :=
  ⟨expand_mergeColumn _, fun i a b ha hb => mergeColumn_get_isFirst _ i a b ha hb⟩

/-- C5 witness: the merge theorem applied to a three-slot column whose cells
all agree on the merged fields, so the second cell is not a span start. -/
theorem c5_merge_roundtrip_witness :
    List.Forall₂ (fun m c => sameGroup m c = true)
      (expandColumn (mergeColumn mergeWitColumn)) mergeWitColumn
    ∧ ((mergeColumn mergeWitColumn).get? 1).map (fun mc => mc.isFirst)
        = some (!sameGroup (mergeWitColumn.getD 0 EMPTY_CELL) (mergeWitColumn.getD 1 EMPTY_CELL)) :=
  ⟨(c5_merge_roundtrip ["09:00", "09:05", "09:10"] "st1" precSessions precAssignments [] []).1,
   (c5_merge_roundtrip ["09:00", "09:05", "09:10"] "st1" precSessions precAssignments [] []).2
     0 (mergeWitColumn.getD 0 EMPTY_CELL) (mergeWitColumn.getD 1 EMPTY_CELL)
     (by decide) (by decide)⟩

/-- C7: CSV canonical fixture — parsing the six-line fixture with an empty
existing-roles list yields exactly two staff members 田中 and 鈴木, one
session 09:00–09:10 and one session 09:00–09:15 (both on day 1), exactly
the two auto-created roles 発表 and サポート, and exactly two assignments
giving 田中 the role 発表 on the first session and 鈴木 the role サポート
on the second. -/
theorem c7_csv_fixture :
    ((parseCSVRows (csvRows fixtureCSV) []).staff.map (fun s => s.name) = ["田中", "鈴木"])
    ∧ ((parseCSVRows (csvRows fixtureCSV) []).sessions.map
        (fun s => (s.dayId, s.startTime, s.endTime))
      = [(1, "09:00", "09:10"), (1, "09:00", "09:15")])
    ∧ ((parseCSVRows (csvRows fixtureCSV) []).roles.map (fun r => r.name) = ["発表", "サポート"])
    ∧ ((parseCSVRows (csvRows fixtureCSV) []).assignments.map
        (fun a => (a.sessionId, a.staffId, a.roleId))
      = [(((parseCSVRows (csvRows fixtureCSV) []).sessions.getD 0 fallbackSession).id,
          ((parseCSVRows (csvRows fixtureCSV) []).staff.getD 0 fallbackStaff).id,
          ((parseCSVRows (csvRows fixtureCSV) []).roles.getD 0 fallbackRole).id),
         (((parseCSVRows (csvRows fixtureCSV) []).sessions.getD 1 fallbackSession).id,
          ((parseCSVRows (csvRows fixtureCSV) []).staff.getD 1 fallbackStaff).id,
          ((parseCSVRows (csvRows fixtureCSV) []).roles.getD 1 fallbackRole).id)]) := by
  refine ⟨?_, ?_, ?_, ?_⟩ <;> decide

theorem validateFields_valid_iff (fields : List (String × Json)) :
    validateFields fields = ValidateResult.valid ↔
      (∀ k ∈ REQUIRED_FIELDS, hasKey fields k = true) ∧
      (∀ k ∈ ARRAY_FIELDS, isArr ((jlookup fields k).getD Json.null) = true) := by
  unfold validateFields
  by_cases hm : (REQUIRED_FIELDS.filter (fun k => !hasKey fields k)).isEmpty = true
  · have hkeys : ∀ k ∈ REQUIRED_FIELDS, hasKey fields k = true := by
      rw [List.isEmpty_iff, List.filter_eq_nil_iff] at hm
      intro k hk
      have := hm k hk
      simpa using this
    rw [if_pos hm]
    cases hfb : firstBadArray fields with
    | some k =>
      have hkbad : ¬ isArr ((jlookup fields k).getD Json.null) = true := by
        have := List.find?_some hfb
        simpa using this
      have hkmem : k ∈ ARRAY_FIELDS := List.mem_of_find?_eq_some hfb
      refine iff_of_false (by simp) ?_
      rintro ⟨_, h2⟩
      exact hkbad (h2 k hkmem)
    | none =>
      have harr : ∀ k ∈ ARRAY_FIELDS, isArr ((jlookup fields k).getD Json.null) = true := by
        unfold firstBadArray at hfb
        rw [List.find?_eq_none] at hfb
        intro k hk
        have := hfb k hk
        simpa using this
      exact iff_of_true rfl ⟨hkeys, harr⟩
  · have hbad : ∃ k ∈ REQUIRED_FIELDS, hasKey fields k = false := by
      rw [List.isEmpty_iff] at hm
      rcases List.exists_mem_of_ne_nil _ hm with ⟨k, hk⟩
      have hkmem := List.mem_of_mem_filter hk
      have hkp := List.of_mem_filter hk
      exact ⟨k, hkmem, by simpa using hkp⟩
    rw [if_neg hm]
    refine iff_of_false (by simp) ?_
    rintro ⟨h1, _⟩
    obtain ⟨k, hkmem, hkf⟩ := hbad
    rw [h1 k hkmem] at hkf
    exact Bool.noConfusion hkf

theorem validateFields_missing (fields : List (String × Json))
    (h : ∃ k ∈ REQUIRED_FIELDS, hasKey fields k = false) :
    validateFields fields = ValidateResult.invalid (missingMsg fields) := by
  obtain ⟨k, hkmem, hkf⟩ := h
  have hne : ¬ (REQUIRED_FIELDS.filter (fun k => !hasKey fields k)).isEmpty = true := by
    rw [List.isEmpty_iff]
    intro hnil
    have : k ∈ REQUIRED_FIELDS.filter (fun k => !hasKey fields k) :=
      List.mem_filter.mpr ⟨hkmem, by simp [hkf]⟩
    rw [hnil] at this
    exact absurd this (List.not_mem_nil k)
  unfold validateFields
  rw [if_neg hne]

theorem validateFields_badArray (fields : List (String × Json)) (k₀ : String)
    (hall : ∀ k ∈ REQUIRED_FIELDS, hasKey fields k = true)
    (hfb : firstBadArray fields = some k₀) :
    validateFields fields = ValidateResult.invalid (arrayMsg k₀) := by
  have hm : (REQUIRED_FIELDS.filter (fun k => !hasKey fields k)).isEmpty = true := by
    rw [List.isEmpty_iff, List.filter_eq_nil_iff]
    intro k hk
    simp [hall k hk]
  unfold validateFields
  rw [if_pos hm, hfb]

/-- C8: import validation — `validateProjectData` accepts a parsed JSON
value exactly when it is an object containing all seven required top-level
keys with the five collection keys bound to arrays (of arbitrary, unchecked
contents); a missing key yields the missing-fields failure naming the
missing keys, and a non-array among the five yields the failure naming the
first offending field in check order. -/
theorem c8_import_validation (j : Json) :
    (validateProjectData j = ValidateResult.valid ↔
      ∃ fields, j = Json.obj fields ∧ (∀ k ∈ REQUIRED_FIELDS, hasKey fields k = true) ∧
        (∀ k ∈ ARRAY_FIELDS, isArr ((jlookup fields k).getD Json.null) = true))
    ∧ (∀ fields, j = Json.obj fields → (∃ k ∈ REQUIRED_FIELDS, hasKey fields k = false) →
        validateProjectData j = ValidateResult.invalid (missingMsg fields))
    ∧ (∀ fields k₀, j = Json.obj fields → (∀ k ∈ REQUIRED_FIELDS, hasKey fields k = true) →
        firstBadArray fields = some k₀ →
        validateProjectData j = ValidateResult.invalid (arrayMsg k₀)) := by
  cases j with
  | obj fields =>
    refine ⟨?_, ?_, ?_⟩
    · show validateFields fields = ValidateResult.valid ↔ _
      rw [validateFields_valid_iff]
      constructor
      · rintro ⟨h1, h2⟩
        exact ⟨fields, rfl, h1, h2⟩
      · rintro ⟨f2, hf, h1, h2⟩
        injection hf with hf
        subst hf
        exact ⟨h1, h2⟩
    · intro f2 hf hmiss
      injection hf with hf
      subst hf
      exact validateFields_missing fields hmiss
    · intro f2 k₀ hf hall hfb
      injection hf with hf
      subst hf
      exact validateFields_badArray fields k₀ hall hfb
  | arr elems =>
    refine ⟨⟨fun h => ?_, fun ⟨f, hf, _⟩ => Json.noConfusion hf⟩,
      fun fields hf => Json.noConfusion hf, fun fields k₀ hf => Json.noConfusion hf⟩
    have h2 : validateFields ([] : List (String × Json)) = ValidateResult.valid := h
    exact absurd h2 (by decide)
  | null =>
    exact ⟨⟨fun h => ValidateResult.noConfusion h, fun ⟨f, hf, _⟩ => Json.noConfusion hf⟩,
      fun fields hf => Json.noConfusion hf, fun fields k₀ hf => Json.noConfusion hf⟩
  | bool b =>
    exact ⟨⟨fun h => ValidateResult.noConfusion h, fun ⟨f, hf, _⟩ => Json.noConfusion hf⟩,
      fun fields hf => Json.noConfusion hf, fun fields k₀ hf => Json.noConfusion hf⟩
  | num n =>
    exact ⟨⟨fun h => ValidateResult.noConfusion h, fun ⟨f, hf, _⟩ => Json.noConfusion hf⟩,
      fun fields hf => Json.noConfusion hf, fun fields k₀ hf => Json.noConfusion hf⟩
  | str s =>
    exact ⟨⟨fun h => ValidateResult.noConfusion h, fun ⟨f, hf, _⟩ => Json.noConfusion hf⟩,
      fun fields hf => Json.noConfusion hf, fun fields k₀ hf => Json.noConfusion hf⟩

/-- C8 witness: a document with all seven keys and junk-filled arrays is
accepted (no deeper shape checked); the same document with `sessions` bound
to a number is rejected naming `sessions`. -/
theorem c8_import_validation_witness :
    validateProjectData goodJson = ValidateResult.valid
    ∧ validateProjectData (Json.obj badArrayJson)
        = ValidateResult.invalid (arrayMsg "sessions") :=
  ⟨(c8_import_validation goodJson).1.mpr ⟨goodFields, rfl, by decide, by decide⟩,
   (c8_import_validation (Json.obj badArrayJson)).2.2 badArrayJson "sessions" rfl
     (by decide) (by decide)⟩

theorem setAssignment_assignments (d : ShiftData) (sid stid rid : String) :
    (setAssignment d sid stid rid).assignments =
      (if rid == "" then d.assignments.filter (fun a => !pairMatch sid stid a)
       else if d.assignments.any (pairMatch sid stid) then
         replaceFirst (pairMatch sid stid) (fun a => { a with roleId := rid }) d.assignments
       else d.assignments ++ [{ sessionId := sid, staffId := stid, roleId := rid
                                note := none, overrides := [] }]) := rfl

theorem replaceFirst_length {α : Type} (p : α → Bool) (f : α → α) :
    ∀ l : List α, (replaceFirst p f l).length = l.length := by
  intro l
  induction l with
  | nil => rfl
  | cons x xs ih =>
    by_cases h : p x = true
    · simp [replaceFirst, h]
    · simp [replaceFirst, h, ih]

theorem replaceFirst_find? {α : Type} (p : α → Bool) (f : α → α) (hpf : ∀ x, p (f x) = p x) :
    ∀ (l : List α) (a : α), l.find? p = some a →
      (replaceFirst p f l).find? p = some (f a) := by
  intro l
  induction l with
  | nil => intro a h; simp at h
  | cons x xs ih =>
    intro a h
    by_cases hx : p x = true
    · rw [List.find?_cons_of_pos _ hx] at h
      injection h with h
      subst h
      simp only [replaceFirst, hx, if_pos]
      rw [List.find?_cons_of_pos _ ((hpf x).trans hx)]
    · rw [List.find?_cons_of_neg _ (by simpa using hx)] at h
      simp only [replaceFirst, hx, if_neg, Bool.not_eq_true]
      rw [List.find?_cons_of_neg _ (by simpa using hx)]
      exact ih a h

theorem mem_replaceFirst {α : Type} (p : α → Bool) (f : α → α) :
    ∀ (l : List α) (y : α), y ∈ replaceFirst p f l → y ∈ l ∨ ∃ z ∈ l, y = f z := by
  intro l
  induction l with
  | nil => intro y h; simp [replaceFirst] at h
  | cons x xs ih =>
    intro y h
    by_cases hx : p x = true
    · simp only [replaceFirst, hx, if_pos] at h
      rcases List.mem_cons.mp h with he | hm
      · exact Or.inr ⟨x, List.mem_cons_self x xs, he⟩
      · exact Or.inl (List.mem_cons_of_mem x hm)
    · simp only [replaceFirst, hx, if_neg, Bool.not_eq_true] at h
      rcases List.mem_cons.mp h with he | hm
      · exact Or.inl (he ▸ List.mem_cons_self x xs)
      · rcases ih y hm with hy | ⟨z, hz, he2⟩
        · exact Or.inl (List.mem_cons_of_mem x hy)
        · exact Or.inr ⟨z, List.mem_cons_of_mem x hz, he2⟩

theorem atMostOnePair_replaceFirst (sid stid rid : String) :
    ∀ l : List Assignment, atMostOnePair l →
      atMostOnePair (replaceFirst (pairMatch sid stid)
        (fun b => { b with roleId := rid }) l) := by
  intro l
  induction l with
  | nil => intro _; exact List.Pairwise.nil
  | cons x xs ih =>
    intro h
    rw [atMostOnePair, List.pairwise_cons] at h
    obtain ⟨hx, hxs⟩ := h
    by_cases hp : pairMatch sid stid x = true
    · simp only [replaceFirst, hp, if_pos]
      rw [atMostOnePair, List.pairwise_cons]
      exact ⟨fun y hy => hx y hy, hxs⟩
    · simp only [replaceFirst, hp, if_neg, Bool.not_eq_true]
      rw [atMostOnePair, List.pairwise_cons]
      refine ⟨?_, ih hxs⟩
      intro y hy
      rcases mem_replaceFirst _ _ xs y hy with hm | ⟨z, hz, he⟩
      · exact hx y hm
      · subst he
        exact hx z hz

/-- C9: `setAssignment` edge semantics — the empty role removes every
assignment of the pair (with its overrides and note); a non-empty role on a
pair that already has an assignment replaces only that assignment's
`roleId`, preserving its note and overrides, without changing the list
length; on a pair with no assignment it appends a fresh assignment with
empty overrides; and the at-most-one-assignment-per-pair invariant is
preserved by every call. -/
theorem c9_set_assignment (d : ShiftData) (sid stid rid : String) (a : Assignment) :
    ((setAssignment d sid stid "").assignments
        = d.assignments.filter (fun x => !pairMatch sid stid x))
    ∧ (rid ≠ "" → pairFind d.assignments sid stid = some a →
        pairFind (setAssignment d sid stid rid).assignments sid stid
            = some { a with roleId := rid }
          ∧ (setAssignment d sid stid rid).assignments.length = d.assignments.length)
    ∧ (rid ≠ "" → pairFind d.assignments sid stid = none →
        (setAssignment d sid stid rid).assignments
          = d.assignments ++ [{ sessionId := sid, staffId := stid, roleId := rid
                                note := none, overrides := [] }])
    ∧ (atMostOnePair d.assignments → atMostOnePair (setAssignment d sid stid rid).assignments) := by
  refine ⟨?_, ?_, ?_, ?_⟩
  · rw [setAssignment_assignments]
    simp
  · intro hr hfind
    have hrne : ¬ ((rid == "") = true) := by simpa using hr
    have hany : d.assignments.any (pairMatch sid stid) = true := by
      rw [List.any_eq_true]
      exact ⟨a, List.mem_of_find?_eq_some hfind, List.find?_some hfind⟩
    rw [setAssignment_assignments, if_neg hrne, if_pos hany]
    rw [pairFind] at hfind ⊢
    exact ⟨replaceFirst_find? (pairMatch sid stid)
      (fun b => { b with roleId := rid }) (fun x => rfl) d.assignments a hfind,
      replaceFirst_length _ _ d.assignments⟩
  · intro hr hfind
    have hrne : ¬ ((rid == "") = true) := by simpa using hr
    have hnone : ∀ x ∈ d.assignments, ¬ pairMatch sid stid x = true := by
      rw [← List.find?_eq_none]
      exact hfind
    have hany : ¬ (d.assignments.any (pairMatch sid stid) = true) := by
      rw [List.any_eq_true]
      rintro ⟨x, hx, hpx⟩
      exact hnone x hx hpx
    rw [setAssignment_assignments, if_neg hrne, if_neg hany]
  · intro h
    rw [setAssignment_assignments]
    by_cases h0 : (rid == "") = true
    · rw [if_pos h0]
      exact List.Pairwise.sublist (List.filter_sublist _) h
    · rw [if_neg h0]
      by_cases hany : d.assignments.any (pairMatch sid stid) = true
      · rw [if_pos hany]
        exact atMostOnePair_replaceFirst sid stid rid d.assignments h
      · rw [if_neg hany]
        rw [atMostOnePair, List.pairwise_append]
        refine ⟨h, List.pairwise_singleton _ _, ?_⟩
        intro x hx y hy
        have hnx : ¬ pairMatch sid stid x = true := by
          intro hpx
          exact hany (List.any_eq_true.mpr ⟨x, hx, hpx⟩)
        rw [List.mem_singleton] at hy
        subst hy
        intro ⟨he1, he2⟩
        apply hnx
        simp [pairMatch, he1, he2]

/-- C9 witness: the edge-semantics theorem applied to a document with one
assignment for the pair, and the invariant preserved. -/
theorem c9_set_assignment_witness :
    ((setAssignment setAsgDoc "s1" "a" "").assignments
        = setAsgDoc.assignments.filter (fun x => !pairMatch "s1" "a" x))
    ∧ pairFind (setAssignment setAsgDoc "s1" "a" "r9").assignments "s1" "a"
        = some { setAsgDoc.assignments.getD 0 fallbackAssignment with roleId := "r9" }
    ∧ atMostOnePair (setAssignment setAsgDoc "s1" "a" "r9").assignments := by
  have h := c9_set_assignment setAsgDoc "s1" "a" "r9"
    (setAsgDoc.assignments.getD 0 fallbackAssignment)
  refine ⟨h.1, (h.2.1 (by decide) (by decide)).1, h.2.2.2 ?_⟩
  rw [atMostOnePair]
  exact List.pairwise_singleton _ _
